import Mathlib


/-!
Verification of the mesh-renumbering subsystem of `src/base/cs_renumber.c`
(code_saturne excerpt) against its natural-language specification.

The C code is shallowly embedded: arrays become `List`s indexed through
total `getD`-style accessors, in-place mutation becomes explicit state
passing, `cs_lnum_t` values that can hold the sentinel `-1` become `Int`
while indices and counts are `Nat`, and the unbounded outer loops of the
multipass algorithm are given an explicit fuel parameter (`none` models a
run that has not finished within the given fuel).  Double-precision
quantities (the thread imbalance `max/mean - 1` and the relaxation
multiply) are modelled exactly: the imbalance as the integer fraction
`(max*n - sum) / sum` and the truncating double-to-integer conversions as
truncated integer division, which agree with the C doubles on all inputs
exercised here (the division `sum = 0` produces NaN in C; all NaN
comparisons are false, which the fraction comparison below reproduces).
-/
/-! ## Array access helpers -/
/-- Total read of a `Nat` array; out-of-range reads (which would be
undefined behaviour in the C) return 0. -/
def getN (l : List Nat) (i : Nat) : Nat := l.getD i 0

/-- Total read of an `Int` array. -/
def getI (l : List Int) (i : Nat) : Int := l.getD i 0

/-- Total read of a face-to-cells pair array. -/
def getP (l : List (Nat × Nat)) (i : Nat) : Nat × Nat := l.getD i (0, 0)

/-! ## Lexicographic ordering of integer key tuples -/
/-- Boolean lexicographic comparison of integer key lists. -/
def lexLe : List Int → List Int → Bool
  | [], _ => true
  | _ :: _, [] => false
  | a :: as, b :: bs => if a < b then true else if b < a then false else lexLe as bs

/-- Modelled from the spec (§4.2 "Lexical Sorter"): the ordering utility
`cs_order_lnum_allocated_s` lives in `cs_order.c`, which is not part of the
excerpt.  Per the spec it "produces a permutation such that keys are
non-decreasing; ties broken arbitrarily but deterministically".  We model
it as a stable insertion sort of the index range by the lexicographic key
order. -/
def cs_order_lnum_s (keys : Nat → List Int) (n : Nat) : List Nat :=
  List.insertionSort (fun a b => lexLe (keys a) (keys b) = true) (List.range n)

/-! ## Mesh data model and numbering descriptors -/
/-- Numbering descriptor attached to a mesh face kind.  `threaded` is
modelled from the spec (§6): `cs_numbering_create_threaded` lives in
`cs_numbering.c`, outside the excerpt; per the spec it persists
`{ kind: threaded, n_threads, n_groups, group_index[] }`. -/
inductive Numbering where
  | threaded (n_threads : Nat) (n_groups : Nat) (group_index : List Int)
  | vectorized (n_elts : Nat) (vector_size : Nat)
  | plain (n_elts : Nat)
  deriving Repr, DecidableEq

/-- Mesh connectivity state (the fields of `cs_mesh_t` read or written by
the renumbering subsystem).  `i_face_cells` entries are 0-based cell id
pairs; `b_face_cells` entries are the values stored in the C array (the
code treats them as 1-based when renumbering cells).  The `face_vtx`
index arrays are 1-based as in the C (`idx[0] = 1`). -/
structure Mesh where
  n_cells : Nat
  n_cells_with_ghosts : Nat
  i_face_cells : List (Nat × Nat)
  b_face_cells : List Nat
  i_face_vtx_idx : List Nat
  i_face_vtx_lst : List Nat
  b_face_vtx_idx : List Nat
  b_face_vtx_lst : List Nat
  cell_family : Option (List Nat)
  i_face_family : Option (List Nat)
  b_face_family : Option (List Nat)
  global_cell_num : Option (List Nat)
  global_i_face_num : Option (List Nat)
  global_b_face_num : Option (List Nat)
  cell_cells_idx : Option (List Nat)
  cell_cells_lst : Option (List Nat)
  i_face_numbering : Option Numbering
  b_face_numbering : Option Numbering
  deriving Repr, DecidableEq

/-! ## Connectivity rewriter (`_update_family`, `_update_global_num`,
`_update_face_vertices`, `_cs_renumber_update_cells`,
`_cs_renumber_update_faces`) -/
/-- Embeds `_update_family`: gather of family ids through the permutation
(no-op when the family array is NULL). -/
def update_family (n_elts : Nat) (new_to_old : List Nat)
    (family : Option (List Nat)) : Option (List Nat) :=
  family.map (fun fam => (List.range n_elts).map (fun ii => getN fam (getN new_to_old ii)))

/-- Embeds `_update_global_num`: gather through the permutation, or 1-based
allocation from the permutation when the array is NULL. -/
def update_global_num (n_elts : Nat) (new_to_old : List Nat)
    (global_num : Option (List Nat)) : Option (List Nat) :=
  match global_num with
  | none => some ((List.range n_elts).map (fun i => getN new_to_old i + 1))
  | some g => some ((List.range n_elts).map (fun i => getN g (getN new_to_old i)))

/-- Embeds `_update_face_vertices`: rebuilds the 1-based face→vertex index
and the flattened vertex list, gathering each face's old vertex segment in
permuted face order.  The C writes segments at a running offset into the
same backing array after saving a copy; the dense in-order writes are
modelled by list append. -/
def update_face_vertices (n_faces : Nat) (face_vtx_idx face_vtx : List Nat)
    (new_to_old : Option (List Nat)) : List Nat × List Nat :=
  match new_to_old with
  | none => (face_vtx_idx, face_vtx)
  | some nto =>
    let step := fun (acc : List Nat × List Nat × Nat) (ii : Nat) =>
      let jj := getN nto ii
      let n_vtx := getN face_vtx_idx (jj + 1) - getN face_vtx_idx jj
      let start_id_old := getN face_vtx_idx jj - 1
      (acc.1 ++ [acc.2.2 + n_vtx + 1],
       acc.2.1 ++ ((face_vtx.drop start_id_old).take n_vtx),
       acc.2.2 + n_vtx)
    let r := (List.range n_faces).foldl step ([1], [], 0)
    (r.1, r.2.1)

/-- Embeds `_cs_renumber_update_cells`.  The old→new scatter loop writes
`new_cell_id[new_to_old[ii]] = ii` for local cells then the identity for
ghosts; the C array is allocated uninitialized, modelled here by starting
from the identity (entries not written by the scatter keep their index).
The halo update and the post-processing notification are external
collaborators with no effect on the mesh fields modelled here.
Note the boundary face update reads `face_cells_tmp[face_id] - 1`: the
stored value is treated as 1-based and the result written back is the
0-based renumbered id. -/
def cs_renumber_update_cells (mesh : Mesh) (new_to_old : Option (List Nat)) : Mesh :=
  match new_to_old with
  | none => mesh
  | some nto =>
    let n_cells := mesh.n_cells
    let ncwg := mesh.n_cells_with_ghosts
    let scat := (List.range n_cells).foldl (fun a ii => a.set (getN nto ii) ii)
      (List.range ncwg)
    let new_cell_id := (List.range' n_cells (ncwg - n_cells)).foldl
      (fun a ii => a.set ii ii) scat
    let i_face_cells := mesh.i_face_cells.map
      (fun p => (getN new_cell_id p.1, getN new_cell_id p.2))
    let b_face_cells := mesh.b_face_cells.map (fun v => getN new_cell_id (v - 1))
    let cc : Option (List Nat) × Option (List Nat) :=
      match mesh.cell_cells_idx, mesh.cell_cells_lst with
      | some idxo, some lsto =>
        let step := fun (acc : List Nat × List Nat × Nat) (ii : Nat) =>
          let jj := getN nto ii
          let n_vis := getN idxo (jj + 1) - getN idxo jj
          let start_id_old := getN idxo jj - 1
          (acc.1 ++ [acc.2.2 + n_vis + 1],
           acc.2.1 ++ (((lsto.drop start_id_old).take n_vis).map
             (fun v => getN new_cell_id (v - 1) + 1)),
           acc.2.2 + n_vis)
        let r := (List.range n_cells).foldl step ([1], [], 0)
        (some r.1, some r.2.1)
      | idxo, lsto => (idxo, lsto)
    { mesh with
      i_face_cells := i_face_cells
      b_face_cells := b_face_cells
      cell_cells_idx := cc.1
      cell_cells_lst := cc.2
      cell_family := update_family n_cells nto mesh.cell_family
      global_cell_num := update_global_num n_cells nto mesh.global_cell_num }

/-- Embeds `_cs_renumber_update_faces` (NULL permutation pointers become
`none`; the post-processing notification is external). -/
def cs_renumber_update_faces (mesh : Mesh)
    (new_to_old_i new_to_old_b : Option (List Nat)) : Mesh :=
  let m1 :=
    match new_to_old_i with
    | none => mesh
    | some nto =>
      let n_i_faces := mesh.i_face_cells.length
      let i_face_cells := (List.range n_i_faces).map
        (fun f => getP mesh.i_face_cells (getN nto f))
      let v := update_face_vertices n_i_faces mesh.i_face_vtx_idx
        mesh.i_face_vtx_lst (some nto)
      { mesh with
        i_face_cells := i_face_cells
        i_face_vtx_idx := v.1
        i_face_vtx_lst := v.2
        i_face_family := update_family n_i_faces nto mesh.i_face_family
        global_i_face_num := update_global_num n_i_faces nto mesh.global_i_face_num }
  match new_to_old_b with
  | none => m1
  | some nto =>
    let n_b_faces := m1.b_face_cells.length
    let b_face_cells := (List.range n_b_faces).map
      (fun f => getN m1.b_face_cells (getN nto f))
    let v := update_face_vertices n_b_faces m1.b_face_vtx_idx
      m1.b_face_vtx_lst (some nto)
    { m1 with
      b_face_cells := b_face_cells
      b_face_vtx_idx := v.1
      b_face_vtx_lst := v.2
      b_face_family := update_family n_b_faces nto m1.b_face_family
      global_b_face_num := update_global_num n_b_faces nto m1.global_b_face_num }

/-! ## Multipass thread assigner (`_renum_face_multipass_*`) -/
/-- Output arrays of `_renum_face_multipass_assign` (the C mutates them in
place). -/
structure AssignOut where
  f_t_id : List Int
  n_t_faces : List Nat
  t_face_last : List Nat
  deriving Repr, DecidableEq

/-- The `while (c_id_0 >= t_cell_index[t_id+1]) t_id += 1;` walk of
`_renum_face_multipass_assign`; the walk advances at most up to the last
thread boundary, so fuel `n_g_i_threads` suffices for every state the C
reaches. -/
def assignWalk (t_cell_index : List Nat) (c0 : Nat) : Nat → Nat → Nat
  | 0, t => t
  | k + 1, t =>
    if getN t_cell_index (t + 1) ≤ c0 then assignWalk t_cell_index c0 k (t + 1) else t

/-- Embeds `_renum_face_multipass_assign`: walks the lexicographically
ordered face list, assigning a face to the thread whose cell block contains
both its cells, or marking it `-1`. -/
def mpAssignStep (n_i_threads n_g_i_threads g_id : Nat)
    (l_face_cells : List (Nat × Nat)) (t_cell_index : List Nat)
    (s : Nat × AssignOut) (p : Nat × Nat) : Nat × AssignOut :=
  let c0 := (getP l_face_cells p.2).1
  let c1 := (getP l_face_cells p.2).2
  let t := assignWalk t_cell_index c0 n_g_i_threads s.1
  if getN t_cell_index t ≤ c0 ∧ c1 < getN t_cell_index (t + 1) then
    (t, AssignOut.mk (s.2.f_t_id.set p.2 ((t + g_id * n_i_threads : Nat) : Int))
          (s.2.n_t_faces.set t (getN s.2.n_t_faces t + 1))
          (s.2.t_face_last.set t p.1))
  else
    (t, { s.2 with f_t_id := s.2.f_t_id.set p.2 (-1) })

def renum_face_multipass_assign (n_i_threads n_g_i_threads g_id : Nat)
    (faces_list : List Nat) (l_face_cells : List (Nat × Nat))
    (f_t_id : List Int) (n_t_faces t_face_last t_cell_index : List Nat) :
    AssignOut :=
  let fls := faces_list.length
  let nt0 := (List.range n_g_i_threads).foldl (fun a t => a.set t 0) n_t_faces
  let tl0 := (List.range n_g_i_threads).foldl (fun a t => a.set t fls) t_face_last
  (faces_list.enum.foldl
    (mpAssignStep n_i_threads n_g_i_threads g_id l_face_cells t_cell_index)
    (0, AssignOut.mk f_t_id nt0 tl0)).2

/-- Embeds `_renum_face_multipass_g_unbalance` exactly as the fraction
`(max*n - sum) / sum` of the double `max/mean - 1` with `mean = sum/n`;
the numerator/denominator pair is kept unreduced.  A zero denominator
corresponds to the C double NaN (`0.0/0.0`). -/
def renum_face_multipass_g_unbalance (n_i_threads : Nat) (n_t_faces : List Nat) :
    Int × Nat :=
  let sum := (List.range n_i_threads).foldl (fun a t => a + getN n_t_faces t) 0
  let mx := (List.range n_i_threads).foldl (fun a t => max a (getN n_t_faces t)) 0
  ((mx * n_i_threads : Int) - sum, sum)

/-- Strict comparison of two unbalance fractions, false whenever either is
the NaN case (zero denominator), matching C double comparison semantics. -/
def ubGtB : Int × Nat → Int × Nat → Bool
  | (a1, s1), (a0, s0) =>
    if s1 = 0 || s0 = 0 then false else decide (a0 * (s1 : Int) < a1 * (s0 : Int))

/-- Read of `l_face_cells[faces_list[i]][0]` at a possibly negative index,
as done by `_renum_face_multipass_redistribute` after its backward scan;
the C reads out of bounds when `i` is `-1` (undefined behaviour), modelled
as the value 0. -/
def lfc0At (faces_list : List Nat) (l_face_cells : List (Nat × Nat)) (i : Int) : Nat :=
  if i < 0 ∨ (faces_list.length : Int) ≤ i then 0
  else (getP l_face_cells (getN faces_list i.toNat)).1

/-- In-range variant of `lfc0At` for the forward scans. -/
def lfc0AtN (faces_list : List Nat) (l_face_cells : List (Nat × Nat)) (i : Nat) : Nat :=
  (getP l_face_cells (getN faces_list i)).1

/-- The backward scan of the surplus branch: decrement `fl_id_end` from
`t_face_last[t_id] - 1` while the face cell stays in the thread's block and
faces remain to move.  The parameter `k` stands for `fl_id_end + 1`, so
`k = 0` is the C value `-1`; the result is the final `fl_id_end` as `Int`. -/
def mpShiftBackCount (faces_list : List Nat) (l_face_cells : List (Nat × Nat))
    (f_t_id : List Int) (t0_c_start : Nat) (tag : Int) : Nat → Int → Int
  | 0, _ => -1
  | k + 1, move =>
    if t0_c_start ≤ (getP l_face_cells (getN faces_list k)).1 ∧ 0 < move then
      mpShiftBackCount faces_list l_face_cells f_t_id t0_c_start tag k
        (if getI f_t_id (getN faces_list k) = tag then move - 1 else move)
    else (k : Int)

/-- The `while` pushing `fl_id_end` forward over faces sharing the same
first cell (surplus branch). -/
def mpPushFwd (faces_list : List Nat) (l_face_cells : List (Nat × Nat))
    (stop : Nat) : Nat → Int → Int
  | 0, fl => fl
  | fuel + 1, fl =>
    if fl < (stop : Int) ∧
        lfc0At faces_list l_face_cells (fl + 1) = lfc0At faces_list l_face_cells fl then
      mpPushFwd faces_list l_face_cells stop fuel (fl + 1)
    else fl

/-- The forward scan of the deficit branch: advance `fl_id_end` from
`t_face_last[t_id]` while within `fl_id_max`, the face cell does not pass
the next thread's block end, and faces remain to gain. -/
def mpShiftFwdCount (faces_list : List Nat) (l_face_cells : List (Nat × Nat))
    (f_t_id : List Int) (fl_id_max t1_c_end : Nat) (tag1 : Int) :
    Nat → Nat → Int → Nat
  | 0, fl, _ => fl
  | fuel + 1, fl, move =>
    if fl ≤ fl_id_max ∧ lfc0AtN faces_list l_face_cells fl ≤ t1_c_end ∧ move < 0 then
      mpShiftFwdCount faces_list l_face_cells f_t_id fl_id_max t1_c_end tag1 fuel
        (fl + 1) (if getI f_t_id (getN faces_list fl) = tag1 then move + 1 else move)
    else fl

/-- The `while` pulling `fl_id_end` back over faces sharing the same first
cell (deficit branch). -/
def mpPullBack (faces_list : List Nat) (l_face_cells : List (Nat × Nat))
    (low_stop : Nat) : Nat → Nat → Nat
  | 0, fl => fl
  | fuel + 1, fl =>
    if low_stop ≤ fl ∧ 0 < fl ∧
        lfc0AtN faces_list l_face_cells fl = lfc0AtN faces_list l_face_cells (fl - 1) then
      mpPullBack faces_list l_face_cells low_stop fuel (fl - 1)
    else fl

/-- One iteration of the thread-boundary adjustment loop of
`_renum_face_multipass_redistribute` (only `t_cell_index` is mutated by
the loop).  `relax` is the relaxation factor as an exact fraction (the
only caller passes 0.5); `n_t_faces_move *= relax` followed by the C
double-to-integer conversion is the truncated division `tdiv`. -/
def mpRedistStep (n_i_threads g_id : Nat) (relax : Int × Nat)
    (faces_list : List Nat) (l_face_cells : List (Nat × Nat))
    (f_t_id : List Int) (n_t_faces t_face_last : List Nat)
    (n_t_faces_target : Nat) (t_cell_index : List Nat) (t_id : Nat) : List Nat :=
  let t_id1 := t_id + 1
  let t0_c_start := getN t_cell_index t_id
  let t1_c_start := getN t_cell_index t_id1
  let t1_c_end := getN t_cell_index (t_id1 + 1)
  let move0 : Int := (getN n_t_faces t_id : Int) - (n_t_faces_target : Int)
  let move : Int := Int.tdiv (move0 * relax.1) (relax.2 : Int)
  if 0 < move then
    let tag : Int := ((t_id + g_id * n_i_threads : Nat) : Int)
    let fl1 := mpShiftBackCount faces_list l_face_cells f_t_id t0_c_start tag
      (getN t_face_last t_id) move
    let fl2 := mpPushFwd faces_list l_face_cells (getN t_face_last t_id)
      faces_list.length fl1
    let v := lfc0At faces_list l_face_cells fl2 + 1
    t_cell_index.set t_id1 (if t1_c_start < v then t1_c_start else v)
  else if move < 0 then
    let tag1 : Int := ((t_id1 + g_id * n_i_threads : Nat) : Int)
    let fl_id_max := min (getN t_face_last t_id1) (faces_list.length - 1)
    let fl1 := mpShiftFwdCount faces_list l_face_cells f_t_id fl_id_max t1_c_end tag1
      (fl_id_max + 2) (getN t_face_last t_id) move
    let fl2 := min fl1 (faces_list.length - 1)
    let fl3 := mpPullBack faces_list l_face_cells (getN t_face_last t_id) fl2 fl2
    let v := lfc0AtN faces_list l_face_cells fl3
    t_cell_index.set t_id1 (if v < t0_c_start then t0_c_start else v)
  else t_cell_index

/-- Output arrays of `_renum_face_multipass_redistribute`. -/
structure RedistOut where
  f_t_id : List Int
  n_t_faces : List Nat
  t_face_last : List Nat
  t_cell_index : List Nat
  deriving Repr, DecidableEq

/-- Embeds `_renum_face_multipass_redistribute`: save the cell index, shift
the thread boundaries, reassign, and revert both if the resulting
unbalance is strictly worse. -/
def renum_face_multipass_redistribute (n_i_threads n_g_i_threads g_id : Nat)
    (relax : Int × Nat) (faces_list : List Nat) (l_face_cells : List (Nat × Nat))
    (f_t_id : List Int) (n_t_faces t_face_last t_cell_index : List Nat) :
    RedistOut :=
  if n_g_i_threads < 2 then
    RedistOut.mk f_t_id n_t_faces t_face_last t_cell_index
  else
    let ub0 := renum_face_multipass_g_unbalance n_g_i_threads n_t_faces
    let sum := (List.range n_g_i_threads).foldl (fun a t => a + getN n_t_faces t) 0
    let target := sum / n_g_i_threads
    let idx1 := (List.range (n_g_i_threads - 1)).foldl
      (mpRedistStep n_i_threads g_id relax faces_list l_face_cells f_t_id
        n_t_faces t_face_last target) t_cell_index
    let o1 := renum_face_multipass_assign n_i_threads n_g_i_threads g_id faces_list
      l_face_cells f_t_id n_t_faces t_face_last idx1
    let ub1 := renum_face_multipass_g_unbalance n_g_i_threads o1.n_t_faces
    if ubGtB ub1 ub0 then
      let o2 := renum_face_multipass_assign n_i_threads n_g_i_threads g_id faces_list
        l_face_cells o1.f_t_id o1.n_t_faces o1.t_face_last t_cell_index
      RedistOut.mk o2.f_t_id o2.n_t_faces o2.t_face_last t_cell_index
    else
      RedistOut.mk o1.f_t_id o1.n_t_faces o1.t_face_last idx1

/-- Embeds `_renum_face_multipass_remaining`: first-touch local
renumbering of the cells adjacent to the remaining faces, rewriting each
remaining face's cell pair in (min, max) order. -/
def renum_face_multipass_remaining (n_f_cells_prev : Nat) (faces_list : List Nat)
    (l_face_cells : List (Nat × Nat)) : Nat × List (Nat × Nat) :=
  let step := fun (s : List Int × Nat × List (Nat × Nat)) (f_id : Nat) =>
    let c0 := (getP s.2.2 f_id).1
    let c1 := (getP s.2.2 f_id).2
    let s1 : List Int × Nat :=
      if getI s.1 c0 < 0 then (s.1.set c0 (s.2.1 : Int), s.2.1 + 1) else (s.1, s.2.1)
    let s2 : List Int × Nat :=
      if getI s1.1 c1 < 0 then (s1.1.set c1 (s1.2 : Int), s1.2 + 1) else (s1.1, s1.2)
    let a := (getI s2.1 c0).toNat
    let b := (getI s2.1 c1).toNat
    (s2.1, s2.2, s.2.2.set f_id (if a < b then (a, b) else (b, a)))
  let r := faces_list.foldl step (List.replicate n_f_cells_prev (-1 : Int), 0, l_face_cells)
  (r.2.1, r.2.2)

/-- Number of threads active for a pass, reduced when too few faces remain
(`_renum_face_multipass`, the `n_g_i_threads` computation). -/
def mp_n_g_i_threads (faces_list_size min_i_subset_size n_i_threads : Nat) : Nat :=
  if faces_list_size / min_i_subset_size < n_i_threads then
    faces_list_size / min_i_subset_size +
      (if faces_list_size % min_i_subset_size = 0 then 1 else 0)
  else n_i_threads

/-- The initial cell-block index of a pass (`t_cell_index` build). -/
def mp_t_cell_index (old : List Nat) (n_g group_size n_f_cells : Nat) : List Nat :=
  let idx0 := old.set 0 0
  let idx1 := (List.range' 1 (n_g - 1)).foldl
    (fun idx t => idx.set t (min (getN idx (t - 1) + group_size) n_f_cells)) idx0
  idx1.set n_g n_f_cells

/-- Mutable state of the pass loop of `_renum_face_multipass`.  The
`faces_list` holds exactly the live prefix of the C array. -/
structure MPState where
  n_f_cells : Nat
  faces_list : List Nat
  l_face_cells : List (Nat × Nat)
  f_t_id : List Int
  n_t_faces : List Nat
  t_face_last : List Nat
  t_cell_index : List Nat
  g_id : Nat
  deriving Repr, DecidableEq

/-- One pass (body of the `for (g_id = 0; faces_list_size > ...)` loop of
`_renum_face_multipass`). -/
def renum_face_multipass_pass (n_i_threads min_i : Nat) (relax : Int × Nat)
    (s : MPState) : MPState :=
  let group_size := s.n_f_cells / n_i_threads
  let n_g := mp_n_g_i_threads s.faces_list.length min_i n_i_threads
  let idx := mp_t_cell_index s.t_cell_index n_g group_size s.n_f_cells
  let a := renum_face_multipass_assign n_i_threads n_g s.g_id s.faces_list
    s.l_face_cells s.f_t_id s.n_t_faces s.t_face_last idx
  let r := renum_face_multipass_redistribute n_i_threads n_g s.g_id relax
    s.faces_list s.l_face_cells a.f_t_id a.n_t_faces a.t_face_last idx
  let new_list := s.faces_list.filter (fun f => getI r.f_t_id f < 0)
  let nr :=
    if 0 < new_list.length then
      renum_face_multipass_remaining s.n_f_cells new_list s.l_face_cells
    else (s.n_f_cells, s.l_face_cells)
  MPState.mk nr.1 new_list nr.2 r.f_t_id r.n_t_faces r.t_face_last r.t_cell_index
    (s.g_id + 1)

/-- The pass loop, with explicit fuel; `none` models a run that has not
terminated within the given number of passes. -/
def renum_face_multipass_loop (n_i_threads min_i : Nat) (relax : Int × Nat) :
    Nat → MPState → Option MPState
  | 0, s => if min_i < s.faces_list.length then none else some s
  | fuel + 1, s =>
    if min_i < s.faces_list.length then
      renum_face_multipass_loop n_i_threads min_i relax fuel
        (renum_face_multipass_pass n_i_threads min_i relax s)
    else some s

/-- Result of `_renum_face_multipass`: `infeasible` is the `return -1`
path (renumbering not attempted, no outputs written). -/
inductive MPResult where
  | infeasible
  | ok (new_to_old_i : List Nat) (n_groups : Nat) (group_index : List Int)
  deriving Repr, DecidableEq

/-- The relaxation factor 0.5 passed by `_renum_face_multipass` to the
redistribution, as an exact fraction. -/
def relax05 : Int × Nat := (1, 2)

/-- The tail of `_renum_face_multipass` after the pass loop: the final
group of leftover faces on thread 0, the final lexical ordering by
(thread tag, cell pair) and the group/thread index build. -/
def mp_finalize (mesh : Mesh) (n_i_threads : Nat) (s : MPState) : MPResult :=
  let n_faces := mesh.i_face_cells.length
  let ftg : List Int × Nat :=
    if 0 < s.faces_list.length then
      (s.faces_list.foldl
        (fun a f => a.set f ((s.g_id * n_i_threads : Nat) : Int)) s.f_t_id,
       s.g_id + 1)
    else (s.f_t_id, s.g_id)
  let f_t_id := ftg.1
  let n_groups := ftg.2
  let keys := fun f =>
    let p := getP mesh.i_face_cells f
    [getI f_t_id f, (min p.1 p.2 : Int) - 1, (max p.1 p.2 : Int) - 1]
  let faces_list2 := cs_order_lnum_s keys n_faces
  let gi0 : List Int := List.replicate (n_groups * n_i_threads * 2) (-1)
  let gi1 := (List.range n_faces).foldl
    (fun gi fl_id =>
      let f := getN faces_list2 fl_id
      let t := (getI f_t_id f).toNat % n_i_threads
      let g := (getI f_t_id f).toNat / n_i_threads
      gi.set ((t * n_groups + g) * 2 + 1) ((fl_id : Int) + 1))
    gi0
  let fill := (List.range n_groups).foldl
    (fun (a : List Int × Int) g =>
      (List.range n_i_threads).foldl
        (fun (b : List Int × Int) t =>
          (b.1.set ((t * n_groups + g) * 2) b.2,
           max (getI b.1 ((t * n_groups + g) * 2 + 1)) b.2))
        a)
    (gi1, 0)
  let gi2 := (List.range n_groups).foldl
    (fun (gi : List Int) g =>
      (List.range n_i_threads).foldl
        (fun (gi : List Int) t =>
          if getI gi ((t * n_groups + g) * 2 + 1) < 0 then
            gi.set ((t * n_groups + g) * 2) (-1)
          else gi)
        gi)
    fill.1
  MPResult.ok faces_list2 n_groups gi2

/-- The initial pass-loop state of `_renum_face_multipass`. -/
def mp_initial_state (mesh : Mesh) (n_i_threads : Nat) : MPState :=
  let n_faces := mesh.i_face_cells.length
  let l_face_cells := mesh.i_face_cells.map
    (fun p => if p.1 < p.2 then p else (p.2, p.1))
  let faces_list := cs_order_lnum_s
    (fun f => [((getP l_face_cells f).1 : Int), ((getP l_face_cells f).2 : Int)])
    n_faces
  MPState.mk mesh.n_cells_with_ghosts faces_list l_face_cells
    (List.replicate n_faces (-1 : Int)) (List.replicate n_i_threads 0)
    (List.replicate n_i_threads 0) (List.replicate (n_i_threads + 1) 0) 0

/-- Embeds `_renum_face_multipass`.  Outer structure: infeasibility guard,
lexical ordering of faces by (min cell, max cell), the pass loop, then the
finalization. -/
def renum_face_multipass (fuel : Nat) (mesh : Mesh) (n_i_threads min_i : Nat) :
    Option MPResult :=
  if mesh.i_face_cells.length ≤ min_i then some MPResult.infeasible
  else
    (renum_face_multipass_loop n_i_threads min_i relax05 fuel
      (mp_initial_state mesh n_i_threads)).map (mp_finalize mesh n_i_threads)

/-! ## Boundary face partitioner
(`_renum_b_faces_no_share_cell_across_thread`) -/
/-- The `while (mesh->b_face_cells[f_id] == c_id)` push of a thread-range
end over boundary faces owned by the same cell. -/
def bPushLoop (b_face_cells new_to_old_b : List Nat) (n c_id : Nat) :
    Nat → Nat → Nat
  | 0, e => e
  | fuel + 1, e =>
    if getN b_face_cells (getN new_to_old_b e) = c_id then
      if e + 1 < n then bPushLoop b_face_cells new_to_old_b n c_id fuel (e + 1)
      else e + 1
    else e

/-- Result of `_renum_b_faces_no_share_cell_across_thread`. -/
structure BRenumOut where
  new_to_old_b : List Nat
  n_b_groups : Nat
  b_group_index : List Int
  status : Int
  deriving Repr, DecidableEq

/-- Embeds `_renum_b_faces_no_share_cell_across_thread`: sort boundary
faces by owning cell id (the C sort key is the pair (cell, face id)),
cut the sorted list at multiples of the subset size, and push each cut
forward so that no cell's faces straddle two threads. -/
def bPartStep (b_face_cells nto : List Nat) (n subset : Nat)
    (s : List Int × Nat) (t : Nat) : List Int × Nat :=
  let start_id := s.2
  let e0 := (t + 1) * subset
  let e1 := if e0 < start_id then start_id else e0
  let e2 :=
    if n < e1 then n
    else if 0 < e1 ∧ e1 < n then
      bPushLoop b_face_cells nto n (getN b_face_cells (getN nto (e1 - 1))) n e1
    else e1
  ((s.1.set (t * 2) (start_id : Int)).set (t * 2 + 1) (e2 : Int), e2)

def renum_b_faces_no_share_cell_across_thread (mesh : Mesh)
    (n_b_threads min_subset_size : Nat) : BRenumOut :=
  let n := mesh.b_face_cells.length
  let nto := cs_order_lnum_s
    (fun i => [(getN mesh.b_face_cells i : Int), (i : Int)]) n
  let subset0 := n / n_b_threads + (if 0 < n % n_b_threads then 1 else 0)
  let subset := max subset0 min_subset_size
  let r := (List.range n_b_threads).foldl
    (bPartStep mesh.b_face_cells nto n subset)
    (List.replicate (n_b_threads * 2) 0, 0)
  BRenumOut.mk nto 1 r.1 (if n < 1 then -1 else 0)

/-- State of the boundary thread-range fold after the first `k` threads: the
group index being filled and the running `end_id`. -/
def bPartState (bfc nto : List Nat) (n subset T k : Nat) : List Int × Nat :=
  (List.range k).foldl (bPartStep bfc nto n subset) (List.replicate (T * 2) 0, 0)

/-- A thread-range cut position is good when it lies at an array boundary or
between two boundary faces owned by different cells in sorted order. -/
def bGoodCut (bfc nto : List Nat) (n e : Nat) : Prop :=
  e = 0 ∨ n ≤ e ∨ (0 < e ∧ getN bfc (getN nto (e - 1)) ≠ getN bfc (getN nto e))

/-! ## CSR graph builder and independent-set grouper
(`_csr_graph_create_cell_face`, `_independent_face_groups`) -/
/-- Embeds `_csr_graph_create_cell_face` (cell → incident faces variant):
the two-pass counting scatter appends each face id to the rows of both its
endpoint cells, in face order; the row contents are modelled directly as
per-row lists (the C flattens them with a row index). -/
def csr_graph_create_cell_face (n_cells_ext : Nat) (face_cell : List (Nat × Nat)) :
    List (List Nat) :=
  face_cell.enum.foldl
    (fun g p =>
      let g1 := g.set p.2.1 (g.getD p.2.1 [] ++ [p.1])
      g1.set p.2.2 (g1.getD p.2.2 [] ++ [p.1]))
    (List.replicate n_cells_ext [])

/-- The conflict test of `_independent_face_groups`: a candidate face
conflicts with the current group when the cell→face graph lists it under
an endpoint cell of some group member. -/
def ifg_conflict (cell_faces : List (List Nat)) (face_cell : List (Nat × Nat))
    (group : List Nat) (f_id : Nat) : Bool :=
  group.any (fun f_cmp =>
    let c := getP face_cell f_cmp
    (cell_faces.getD c.1 []).contains f_id || (cell_faces.getD c.2 []).contains f_id)

/-- Scan state of `_independent_face_groups`: the face markers (`-1` =
unmarked, otherwise the group id), the old→new positions, the number of
marked faces, the first possibly-unmarked face id, and the groups closed
so far. -/
structure IFGState where
  face_marker : List Int
  old_to_new : List Nat
  n_marked : Nat
  first_unmarked : Nat
  groups : List (List Nat)
  deriving Repr, DecidableEq

/-- The inner scan of `_independent_face_groups` over the candidate face
ids of one group: conflict-free unmarked faces are admitted until the
group reaches `max_group_size` or the face list is exhausted. -/
def ifg_scan (cell_faces : List (List Nat)) (face_cell : List (Nat × Nat))
    (max_group_size : Nat) :
    List Nat → IFGState × List Nat → IFGState × List Nat
  | [], st => st
  | f :: rest, st =>
    if getI st.1.face_marker f = -1 then
      if ifg_conflict cell_faces face_cell st.2 f then
        ifg_scan cell_faces face_cell max_group_size rest st
      else
        let st' : IFGState :=
          { face_marker := st.1.face_marker.set f (st.1.groups.length : Int)
            old_to_new := st.1.old_to_new.set f st.1.n_marked
            n_marked := st.1.n_marked + 1
            first_unmarked :=
              if st.1.first_unmarked = f then f + 1 else st.1.first_unmarked
            groups := st.1.groups }
        let group' := st.2 ++ [f]
        if group'.length = max_group_size then (st', group')
        else ifg_scan cell_faces face_cell max_group_size rest (st', group')
    else ifg_scan cell_faces face_cell max_group_size rest st

/-- The outer `while (n_marked_faces != n_faces)` loop of
`_independent_face_groups`, with fuel; each iteration closes one group. -/
def ifg_outer (cell_faces : List (List Nat)) (face_cell : List (Nat × Nat))
    (max_group_size n_faces : Nat) : Nat → IFGState → IFGState
  | 0, st => st
  | fuel + 1, st =>
    if st.n_marked = n_faces then st
    else
      let r := ifg_scan cell_faces face_cell max_group_size
        (List.range' st.first_unmarked (n_faces - st.first_unmarked)) (st, [])
      ifg_outer cell_faces face_cell max_group_size n_faces fuel
        { r.1 with groups := r.1.groups ++ [r.2] }

/-- Embeds `_independent_face_groups`: returns the new→old face
permutation, the group count and the group sizes.  The outer loop is run
with fuel `n_faces`, which suffices because every iteration marks at least
one face (proved below). -/
def independent_face_groups (max_group_size n_cells_ext : Nat)
    (face_cell : List (Nat × Nat)) : List Nat × Nat × List Nat :=
  let n_faces := face_cell.length
  let g := csr_graph_create_cell_face n_cells_ext face_cell
  let st0 : IFGState :=
    IFGState.mk (List.replicate n_faces (-1 : Int)) (List.range n_faces) 0 0 []
  let st := ifg_outer g face_cell max_group_size n_faces n_faces st0
  let nto := (List.range n_faces).foldl
    (fun a f => a.set (getN st.old_to_new f) f) (List.range n_faces)
  (nto, st.groups.length, st.groups.map List.length)

/-- The internal grouper state reached by `_independent_face_groups`
(exposed for the statements about group contents). -/
def ifg_run (max_group_size n_cells_ext : Nat) (face_cell : List (Nat × Nat)) :
    IFGState :=
  ifg_outer (csr_graph_create_cell_face n_cells_ext face_cell) face_cell
    max_group_size face_cell.length face_cell.length
    (IFGState.mk (List.replicate face_cell.length (-1 : Int))
      (List.range face_cell.length) 0 0 [])

/-! ## Block-uniform grouper thread bounds and callers
(`_thread_bounds_by_group_size`, `_renum_i_faces_no_share_cell_in_block`,
`_renumber_for_threads`) -/
/-- Embeds `_thread_bounds_by_group_size`: spread each group evenly over
the threads (remainder to the first threads), except that a group with at
most 4 faces per thread goes entirely to thread 0. -/
def thread_bounds_by_group_size (n_faces : Nat) (n_groups n_threads : Nat)
    (group_size : List Nat) : List Int × Int :=
  let stride := 2 * n_groups
  let r := (List.range n_groups).foldl
    (fun (s : List Int × Nat) g =>
      let gs := getN group_size g
      let j := gs / n_threads
      let jr := gs % n_threads
      if 4 < j then
        (List.range n_threads).foldl
          (fun (b : List Int × Nat) k =>
            let ip1 := b.2 + j + (if k < jr then 1 else 0)
            ((b.1.set (k * stride + g * 2) (b.2 : Int)).set
              (k * stride + g * 2 + 1) (ip1 : Int), ip1))
          s
      else
        let s1 := ((s.1.set (g * 2) (s.2 : Int)).set (g * 2 + 1) ((s.2 + gs : Nat) : Int),
                   s.2 + gs)
        (List.range' 1 (n_threads - 1)).foldl
          (fun (b : List Int × Nat) k =>
            ((b.1.set (k * stride + g * 2) 0).set (k * stride + g * 2 + 1) 0, b.2))
          s1)
    (List.replicate (n_threads * n_groups * 2) 0, 0)
  (r.1, if r.2 = n_faces then 0 else -1)

/-- The shrink loop on the target block size at the head of
`_renum_i_faces_no_share_cell_in_block`. -/
def blockSizeShrink (n_i_faces min_i n_i_threads : Nat) : Nat → Nat → Nat
  | 0, m => m
  | fuel + 1, m =>
    if n_i_faces / m < 2 * n_i_threads ∧ min_i < m then
      blockSizeShrink n_i_faces min_i n_i_threads fuel (m - 64)
    else m

/-- Embeds `_renum_i_faces_no_share_cell_in_block`. -/
def renum_i_faces_no_share_cell_in_block (mesh : Mesh)
    (n_i_threads max_group_size min_i : Nat) :
    List Nat × Nat × List Int × Int :=
  let m0 := blockSizeShrink mesh.i_face_cells.length min_i n_i_threads
    (max_group_size + 1) max_group_size
  let m1 := if m0 < min_i then min_i else m0
  let m2 := if m1 < n_i_threads * 2 then n_i_threads * 2 else m1
  let r := independent_face_groups m2 mesh.n_cells_with_ghosts mesh.i_face_cells
  let b := thread_bounds_by_group_size mesh.i_face_cells.length r.2.1 n_i_threads r.2.2
  (r.1, r.2.1, b.1, b.2)

/-- Interior-face algorithm selector (`cs_renumber_i_faces_type_t`). -/
inductive IFacesType where
  | block
  | multipassAlgo
  | noAlgo
  deriving Repr, DecidableEq

/-- Observable outcome of `_renumber_for_threads`: the final mesh plus the
internal values the claims speak about (group/thread counts actually used
and the permutations handed to the connectivity rewriter). -/
structure RFTDetail where
  mesh : Mesh
  n_i_groups : Nat
  n_i_threads : Nat
  n_b_groups : Nat
  n_b_threads : Nat
  applied_new_to_old_i : Option (List Nat)
  applied_new_to_old_b : Option (List Nat)
  deriving Repr, DecidableEq

/-- Embeds `_renumber_for_threads`.  Cells are never renumbered by this
function (`update_c` stays 0, so `new_to_old_c` is freed and the cell
update is skipped); a face permutation is applied only when its algorithm
succeeded.  Returns `none` only when the multipass pass loop exceeds its
fuel (the C would not terminate). -/
def renumber_for_threads (fuel : Nat) (cfg_n_threads min_i min_b : Nat)
    (algo : IFacesType) (mesh : Mesh) : Option RFTDetail :=
  if cfg_n_threads < 2 then
    some (RFTDetail.mk mesh 1 1 1 1 none none)
  else
    let n_i_threads := cfg_n_threads
    let n_b_threads := cfg_n_threads
    let identN := fun (n : Nat) => List.range n
    let iRes : Option (Int × List Nat × Nat × List Int) :=
      match algo with
      | IFacesType.block =>
        let r := renum_i_faces_no_share_cell_in_block mesh n_i_threads 1014 min_i
        some (r.2.2.2, r.1, r.2.1, r.2.2.1)
      | IFacesType.multipassAlgo =>
        match renum_face_multipass fuel mesh n_i_threads min_i with
        | none => none
        | some MPResult.infeasible =>
          some (-1, identN mesh.i_face_cells.length, 1, [])
        | some (MPResult.ok nto ng gi) => some (0, nto, ng, gi)
      | IFacesType.noAlgo => some (-1, identN mesh.i_face_cells.length, 1, [])
    match iRes with
    | none => none
    | some ir =>
      let iOk := ir.1 = 0
      let n_i_groups := if iOk then ir.2.2.1 else 1
      let n_i_threads := if iOk then n_i_threads else 1
      let mesh1 :=
        if 1 < n_i_groups * n_i_threads then
          { mesh with
              i_face_numbering := some (Numbering.threaded n_i_threads n_i_groups ir.2.2.2) }
        else mesh
      let bRes := renum_b_faces_no_share_cell_across_thread mesh1 n_b_threads min_b
      let bOk := bRes.status = 0
      let n_b_groups := if bOk then bRes.n_b_groups else 1
      let n_b_threads := if bOk then n_b_threads else 1
      let mesh2 :=
        if 1 < n_b_groups * n_b_threads then
          { mesh1 with
              b_face_numbering := some (Numbering.threaded n_b_threads n_b_groups bRes.b_group_index) }
        else mesh1
      let ntoI := if iOk then some ir.2.1 else none
      let ntoB := if bOk then some bRes.new_to_old_b else none
      let mesh3 :=
        if ntoI.isSome || ntoB.isSome then cs_renumber_update_faces mesh2 ntoI ntoB
        else mesh2
      some (RFTDetail.mk mesh3 n_i_groups n_i_threads n_b_groups n_b_threads ntoI ntoB)

/-! ## Claim-side notions and concrete instances -/
/-- An empty mesh, base for the concrete instances below. -/
def mesh0 : Mesh :=
  Mesh.mk 0 0 [] [] [] [] [] [] none none none none none none none none none none

/-- Start entry of a group/thread index (layout
`group_index[(t_id*n_groups + g_id)*2]`). -/
def giStart (gi : List Int) (n_groups t g : Nat) : Int :=
  getI gi ((t * n_groups + g) * 2)

/-- End entry of a group/thread index. -/
def giEnd (gi : List Int) (n_groups t g : Nat) : Int :=
  getI gi ((t * n_groups + g) * 2 + 1)

/-- Cell ids adjacent to the interior faces with positions in `[s, e)` of a
permuted face→cells array. -/
def rangeCells (face_cells : List (Nat × Nat)) (s e : Nat) : List Nat :=
  (List.range' s (e - s)).foldr
    (fun f a => (getP face_cells f).1 :: (getP face_cells f).2 :: a) []

/-- Conflict-freedom of a group/thread index over a permuted face→cells
array: for every group and every pair of distinct threads whose ranges are
valid, the sets of adjacent cell ids are disjoint. -/
def groupIndexConflictFreeB (n_threads n_groups : Nat) (gi : List Int)
    (face_cells : List (Nat × Nat)) : Bool :=
  (List.range n_groups).all fun g =>
    (List.range n_threads).all fun t1 =>
      (List.range n_threads).all fun t2 =>
        decide (t1 = t2) ||
        !(decide (0 ≤ giStart gi n_groups t1 g) &&
          decide (0 ≤ giStart gi n_groups t2 g)) ||
        (rangeCells face_cells (giStart gi n_groups t1 g).toNat
            (giEnd gi n_groups t1 g).toNat).all
          (fun c =>
            !((rangeCells face_cells (giStart gi n_groups t2 g).toNat
                (giEnd gi n_groups t2 g).toNat).contains c))

/-- Mesh on which the multipass group/thread index violates
conflict-freedom: 14 cells, 11 interior faces, 4 threads, minimum interior
subset size 2. -/
def c1_mesh : Mesh :=
  { mesh0 with
    n_cells := 14
    n_cells_with_ghosts := 14
    i_face_cells := [(7,0),(5,1),(12,0),(9,3),(8,0),(3,11),(0,4),(10,1),(2,11),(3,13),(6,0)] }

/-- The permutation the multipass algorithm produces on `c1_mesh`. -/
def c1_nto : List Nat := [6, 10, 1, 7, 8, 3, 5, 9, 0, 4, 2]

/-- The group/thread index the multipass algorithm produces on `c1_mesh`
(3 groups, 4 threads): in group 1, thread 1 owns face positions [2, 5) and
thread 3 owns [5, 8), and both touch cell 11. -/
def c1_gi : List Int :=
  [-1, -1, 0, 2, 8, 11, -1, -1, 2, 5, -1, -1, -1, -1, -1, -1, -1, -1, -1, -1, 5, 8, -1, -1]

/-- Mesh on which the multipass pass loop never terminates: 3 cells, the
two interior faces (0,1) and (0,2), 2 threads, minimum subset size 1.
Every pass assigns zero faces and leaves the state unchanged. -/
def c8_mesh : Mesh :=
  { mesh0 with
    n_cells := 3
    n_cells_with_ghosts := 3
    i_face_cells := [(0,1),(0,2)] }

/-- The fixed point the `c8_mesh` pass loop reaches after one pass. -/
def c8_s1 : MPState :=
  renum_face_multipass_pass 2 1 relax05 (mp_initial_state c8_mesh 2)

/-- Boundary scenario mesh: 10 boundary faces whose owning cells, in
sorted order, are 0,1,2,3,3,4,5,6,7,8 (the 4th and 5th faces share cell
3). -/
def c5_mesh : Mesh :=
  { mesh0 with
    n_cells := 9
    n_cells_with_ghosts := 9
    b_face_cells := [0,1,2,3,3,4,5,6,7,8] }

/-- Mesh with a single cell and a single boundary face holding the 1-based
cell value 1, exhibiting the base conversion done by
`_cs_renumber_update_cells`. -/
def c2_mesh : Mesh :=
  { mesh0 with
    n_cells := 1
    n_cells_with_ghosts := 1
    b_face_cells := [1]
    b_face_vtx_idx := [1, 2]
    b_face_vtx_lst := [5] }

/-- The invariant state family of the nonterminating `c8_mesh` run: the
pass loop maps the state with pass counter `g` to the same state with
counter `g + 1`, without assigning any face. -/
def c8_fix (g : Nat) : MPState :=
  MPState.mk 3 [0, 1] [(0, 1), (0, 2)] [-1, -1] [0, 0] [2, 2] [0, 1, 3] g

abbrev idx1Wf (idx lst : List Nat) (n : Nat) : Prop :=
  idx.length = n + 1 ∧ getN idx 0 = 1 ∧
  (∀ k, k < n → getN idx k ≤ getN idx (k + 1)) ∧
  lst.length = getN idx n - 1

def c2w_mesh : Mesh :=
  { mesh0 with
    n_cells := 2
    n_cells_with_ghosts := 2
    i_face_cells := [(0, 1)]
    b_face_cells := [1, 2]
    i_face_vtx_idx := [1, 3]
    i_face_vtx_lst := [7, 8]
    b_face_vtx_idx := [1, 2, 3]
    b_face_vtx_lst := [4, 5]
    cell_family := some [9, 9]
    i_face_family := some [6]
    b_face_family := some [7, 8]
    cell_cells_idx := some [1, 2, 3]
    cell_cells_lst := some [2, 1] }

def c3_mesh : Mesh :=
  { mesh0 with
    n_cells := 6
    n_cells_with_ghosts := 6
    i_face_cells := [(0,1),(1,2),(2,3),(3,4),(4,5)] }

def unbalanceQ (n : Nat) (l : List Nat) : ℚ :=
  (((List.range n).foldl (fun a t => max a (getN l t)) 0 : Nat) : ℚ) /
    ((((List.range n).foldl (fun a t => a + getN l t) 0 : Nat) : ℚ) / (n : ℚ)) - 1

/-! ## C6/C7: independent-face-groups grouper and permutation lemmas -/
def sharesCell (fc : List (Nat × Nat)) (f1 f2 : Nat) : Prop :=
  (getP fc f1).1 = (getP fc f2).1 ∨ (getP fc f1).1 = (getP fc f2).2 ∨
  (getP fc f1).2 = (getP fc f2).1 ∨ (getP fc f1).2 = (getP fc f2).2

structure IFGInv (fc : List (Nat × Nat)) (max_gs : Nat) (st : IFGState)
    (grp : List Nat) : Prop where
  hm_len : st.face_marker.length = fc.length
  ho_len : st.old_to_new.length = fc.length
  hmark : ∀ f, f < fc.length →
    (getI st.face_marker f ≠ -1 ↔ f ∈ st.groups.flatten ++ grp)
  hcount : (st.groups.flatten ++ grp).length = st.n_marked
  hlt : ∀ f ∈ st.groups.flatten ++ grp, f < fc.length
  hpos : ∀ k, k < (st.groups.flatten ++ grp).length →
    getN st.old_to_new (getN (st.groups.flatten ++ grp) k) = k
  hgsize : ∀ g ∈ st.groups, g.length ≤ max_gs
  hind : ∀ g ∈ st.groups, List.Pairwise (fun a b => ¬ sharesCell fc a b) g
  hgind : List.Pairwise (fun a b => ¬ sharesCell fc a b) grp
  hfu : ∀ f, f < st.first_unmarked → f < fc.length → getI st.face_marker f ≠ -1

def c7_mesh : Mesh :=
  { mesh0 with
    n_cells := 4
    n_cells_with_ghosts := 4
    i_face_cells := [(0, 1), (2, 3)] }

/-! ## Helper lemmas and theorems -/
set_option maxRecDepth 100000
set_option maxHeartbeats 4000000

theorem lexLe_refl (l : List Int) : lexLe l l = true := by
  induction l with
  | nil => rfl
  | cons a as ih => simp [lexLe, ih]

theorem lexLe_total (l₁ l₂ : List Int) : lexLe l₁ l₂ = true ∨ lexLe l₂ l₁ = true := by
  induction l₁ generalizing l₂ with
  | nil => left; rfl
  | cons a as ih =>
    cases l₂ with
    | nil => right; rfl
    | cons b bs =>
      rcases lt_trichotomy a b with h | h | h
      · left; simp [lexLe, h]
      · subst h
        rcases ih bs with h' | h'
        · left; simp [lexLe, h']
        · right; simp [lexLe, h']
      · right; simp [lexLe, h]

theorem lexLe_trans {l₁ l₂ l₃ : List Int} (h₁ : lexLe l₁ l₂ = true)
    (h₂ : lexLe l₂ l₃ = true) : lexLe l₁ l₃ = true := by
  induction l₁ generalizing l₂ l₃ with
  | nil => rfl
  | cons a as ih =>
    cases l₂ with
    | nil => simp [lexLe] at h₁
    | cons b bs =>
      cases l₃ with
      | nil => simp [lexLe] at h₂
      | cons c cs =>
        simp only [lexLe] at h₁ h₂ ⊢
        rcases lt_trichotomy a b with hab | hab | hab
        · rcases lt_trichotomy b c with hbc | hbc | hbc
          · simp [lt_trans hab hbc]
          · subst hbc; simp [hab]
          · simp [hab, not_lt.mpr (le_of_lt hab)] at h₁ ⊢
            simp [hbc, not_lt.mpr (le_of_lt hbc)] at h₂
        · subst hab
          rcases lt_trichotomy a c with hbc | hbc | hbc
          · simp [hbc]
          · subst hbc
            simp [lt_irrefl] at h₁ h₂ ⊢
            exact ih h₁ h₂
          · simp [hbc, not_lt.mpr (le_of_lt hbc)] at h₂
        · simp [hab, not_lt.mpr (le_of_lt hab)] at h₁

theorem cs_order_lnum_s_perm (keys : Nat → List Int) (n : Nat) :
    (cs_order_lnum_s keys n).Perm (List.range n) :=
  List.perm_insertionSort _ _

theorem cs_order_lnum_s_sorted (keys : Nat → List Int) (n : Nat) :
    List.Sorted (fun a b => lexLe (keys a) (keys b) = true) (cs_order_lnum_s keys n) := by
  have htot : IsTotal Nat (fun a b => lexLe (keys a) (keys b) = true) :=
    ⟨fun a b => lexLe_total (keys a) (keys b)⟩
  have htrans : IsTrans Nat (fun a b => lexLe (keys a) (keys b) = true) :=
    ⟨fun _ _ _ h₁ h₂ => lexLe_trans h₁ h₂⟩
  exact List.sorted_insertionSort _ _

theorem c8_first_pass :
    renum_face_multipass_pass 2 1 relax05 (mp_initial_state c8_mesh 2) = c8_fix 1 := by
  decide

theorem c8_pass_step (g : Nat) :
    renum_face_multipass_pass 2 1 relax05 (c8_fix g) = c8_fix (g + 1) := by
  simp [renum_face_multipass_pass, mp_n_g_i_threads, mp_t_cell_index,
        renum_face_multipass_assign, mpAssignStep, assignWalk,
        renum_face_multipass_redistribute, mpRedistStep,
        renum_face_multipass_g_unbalance, ubGtB,
        renum_face_multipass_remaining, getN, getI, getP, c8_fix, List.enum,
        List.range', List.foldl, List.filter]

theorem c8_loop_fix : ∀ (fuel g : Nat),
    renum_face_multipass_loop 2 1 relax05 fuel (c8_fix g) = none := by
  intro fuel
  induction fuel with
  | zero => intro g; simp [renum_face_multipass_loop, c8_fix]
  | succ n ih =>
    intro g
    rw [renum_face_multipass_loop]
    rw [if_pos (by simp [c8_fix])]
    rw [c8_pass_step g]
    exact ih (g + 1)

theorem c8_loop_s0 (fuel : Nat) :
    renum_face_multipass_loop 2 1 relax05 fuel (mp_initial_state c8_mesh 2) = none := by
  cases fuel with
  | zero => decide
  | succ n =>
    rw [renum_face_multipass_loop]
    rw [if_pos (by decide)]
    rw [c8_first_pass]
    exact c8_loop_fix n 1

/-- Claim C8.  The spec claims the multipass pass loop terminates for
every valid input (face count above the minimum subset size, thread count
at least 1), each pass assigning at least one face.  The code violates
this: on `c8_mesh` (2 interior faces, minimum subset size 1, 2 threads)
every pass assigns zero faces — each thread's cell block is too small to
contain both cells of any face — and the remaining-face renumbering then
reproduces the same state, so the loop runs forever: the embedding
returns `none` for every fuel. -/
theorem multipass_loop_nonterminating (fuel : Nat) :
    renum_face_multipass fuel c8_mesh 2 1 = none := by
  have h0 : renum_face_multipass fuel c8_mesh 2 1 =
      (renum_face_multipass_loop 2 1 relax05 fuel (mp_initial_state c8_mesh 2)).map
        (mp_finalize c8_mesh 2) := by
    rw [renum_face_multipass, if_neg (by decide)]
  rw [h0, c8_loop_s0]
  rfl

/-- Claim C1.  The spec claims the group/thread index produced by the
multipass algorithm is conflict-free: distinct threads of one group touch
disjoint cell sets.  The code violates this (its own validator
`_renumber_test` would abort): on `c1_mesh` with 4 threads and minimum
interior subset size 2, the produced index has, in group 1, thread 1
owning face positions [2, 5) and thread 3 owning [5, 8), and both ranges
touch cell 11 (permuted faces (2,11) at position 4 and (3,11) at
position 6). -/
theorem multipass_conflict_freedom_violated :
    renum_face_multipass 20 c1_mesh 4 2 = some (MPResult.ok c1_nto 3 c1_gi) ∧
    groupIndexConflictFreeB 4 3 c1_gi
      (cs_renumber_update_faces c1_mesh (some c1_nto) none).i_face_cells = false := by
  decide

/-- Claim C9 counterexample.  The spec claims that whenever the remaining
face count divided by the minimum subset size is below the thread count,
the pass's active thread count `n_g_i_threads` satisfies
`n_g_i_threads * min_i_subset_size ≤ remaining`.  With 128 remaining
faces, minimum subset size 64 and 3 configured threads the reduction
branch is taken (128/64 = 2 < 3) but the code adds 1 when the face count
is divisible by the minimum, giving 3 active threads and 3*64 = 192 >
128. -/
theorem n_g_i_threads_exceeds_min_budget :
    128 / 64 < 3 ∧ mp_n_g_i_threads 128 64 3 = 3 ∧
    ¬ (mp_n_g_i_threads 128 64 3 * 64 ≤ 128) := by
  decide

/-- Claim C9 amended: in the reduction branch the active thread count is
`remaining / min` plus one extra when `min` divides `remaining`; the
budget bound `n_g_i_threads * min ≤ remaining` therefore holds exactly
when `min` does not divide `remaining`. -/
theorem n_g_i_threads_amended (flsize min_i n : Nat)
    (hred : flsize / min_i < n) :
    mp_n_g_i_threads flsize min_i n =
      flsize / min_i + (if flsize % min_i = 0 then 1 else 0) ∧
    (flsize % min_i ≠ 0 → mp_n_g_i_threads flsize min_i n * min_i ≤ flsize) := by
  refine ⟨by simp [mp_n_g_i_threads, hred], ?_⟩
  intro hmod
  simp [mp_n_g_i_threads, hred, hmod]
  exact Nat.div_mul_le_self _ _

theorem n_g_i_threads_amended_witness :
    130 / 64 < 3 ∧
    (mp_n_g_i_threads 130 64 3 =
      130 / 64 + (if 130 % 64 = 0 then 1 else 0) ∧
    (130 % 64 ≠ 0 → mp_n_g_i_threads 130 64 3 * 64 ≤ 130)) :=
  ⟨by decide, n_g_i_threads_amended 130 64 3 (by decide)⟩

/-- Claim C10: with a configured renumbering thread count below 2,
`_renumber_for_threads` returns immediately; the mesh (connectivity,
families, global numbering, numbering descriptors) is exactly the input
and no permutation is applied. -/
theorem renumber_for_threads_noop_below_two_threads
    (fuel cfg min_i min_b : Nat) (algo : IFacesType) (mesh : Mesh) (h : cfg < 2) :
    renumber_for_threads fuel cfg min_i min_b algo mesh =
      some (RFTDetail.mk mesh 1 1 1 1 none none) := by
  simp [renumber_for_threads, h]

theorem renumber_for_threads_noop_below_two_threads_witness :
    1 < 2 ∧
    renumber_for_threads 5 1 64 64 IFacesType.multipassAlgo c1_mesh =
      some (RFTDetail.mk c1_mesh 1 1 1 1 none none) :=
  ⟨by decide,
   renumber_for_threads_noop_below_two_threads 5 1 64 64 IFacesType.multipassAlgo
     c1_mesh (by decide)⟩

theorem mp_finalize_ne_infeasible (mesh : Mesh) (n : Nat) (s : MPState) :
    mp_finalize mesh n s ≠ MPResult.infeasible := by
  simp [mp_finalize]

theorem update_faces_none_i_fields (m : Mesh) (nb : Option (List Nat)) :
    (cs_renumber_update_faces m none nb).i_face_cells = m.i_face_cells ∧
    (cs_renumber_update_faces m none nb).i_face_vtx_idx = m.i_face_vtx_idx ∧
    (cs_renumber_update_faces m none nb).i_face_vtx_lst = m.i_face_vtx_lst ∧
    (cs_renumber_update_faces m none nb).i_face_family = m.i_face_family ∧
    (cs_renumber_update_faces m none nb).global_i_face_num = m.global_i_face_num ∧
    (cs_renumber_update_faces m none nb).i_face_numbering = m.i_face_numbering := by
  cases nb <;> simp [cs_renumber_update_faces]

/-- Claim C3: `_renum_face_multipass` returns its negative status exactly
when the interior face count is at or below the configured minimum
interior subset size (writing no outputs), and the caller
`_renumber_for_threads` then falls back to a single group and single
thread for interior faces: no threaded interior-face numbering is created,
no interior permutation is applied (the rewriter receives NULL), and the
interior connectivity arrays are left untouched. -/
theorem multipass_infeasible_iff_and_caller_fallback
    (fuel cfg min_i min_b : Nat) (mesh : Mesh) (hcfg : 2 ≤ cfg) :
    (renum_face_multipass fuel mesh cfg min_i = some MPResult.infeasible ↔
      mesh.i_face_cells.length ≤ min_i) ∧
    (mesh.i_face_cells.length ≤ min_i →
      ∃ d, renumber_for_threads fuel cfg min_i min_b IFacesType.multipassAlgo mesh =
            some d ∧
        d.n_i_groups = 1 ∧ d.n_i_threads = 1 ∧ d.applied_new_to_old_i = none ∧
        d.mesh.i_face_numbering = mesh.i_face_numbering ∧
        d.mesh.i_face_cells = mesh.i_face_cells ∧
        d.mesh.i_face_vtx_idx = mesh.i_face_vtx_idx ∧
        d.mesh.i_face_vtx_lst = mesh.i_face_vtx_lst ∧
        d.mesh.i_face_family = mesh.i_face_family ∧
        d.mesh.global_i_face_num = mesh.global_i_face_num) := by
  constructor
  · constructor
    · intro h
      by_contra hlen
      rw [renum_face_multipass, if_neg hlen] at h
      cases hE : renum_face_multipass_loop cfg min_i relax05 fuel
          (mp_initial_state mesh cfg) with
      | none => rw [hE] at h; simp at h
      | some s =>
        rw [hE] at h
        simp at h
        exact mp_finalize_ne_infeasible mesh cfg s h
    · intro h
      rw [renum_face_multipass, if_pos h]
  · intro hlen
    have hmp : renum_face_multipass fuel mesh cfg min_i = some MPResult.infeasible := by
      rw [renum_face_multipass, if_pos hlen]
    rw [renumber_for_threads, if_neg (by omega)]
    simp only [hmp]
    refine ⟨_, rfl, ?_⟩
    norm_num
    by_cases hb : (renum_b_faces_no_share_cell_across_thread mesh cfg min_b).status = 0
    · have hcfg1 : 1 < 1 * cfg := by omega
      simp only [hb, hcfg1, if_true, reduceIte]
      refine ⟨?_, ?_, ?_, ?_, ?_, ?_⟩ <;> simp [cs_renumber_update_faces] <;> split <;> rfl
    · simp only [hb, if_false, reduceIte]
      refine ⟨?_, ?_, ?_, ?_, ?_, ?_⟩ <;> simp [cs_renumber_update_faces]

theorem map_getD_range {α : Type} (l : List α) (d : α) :
    (List.range l.length).map (fun i => l.getD i d) = l := by
  apply List.ext_get
  · simp
  · intro i h1 h2
    simp [List.getD_eq_getElem?_getD, List.getElem?_eq_getElem h2]

theorem range_set_self (n i : Nat) : (List.range n).set i i = List.range n := by
  apply List.ext_get
  · simp
  · intro j h1 h2
    simp only [List.get_eq_getElem, List.getElem_set]
    split
    · subst ‹i = j›; simp [List.getElem_range]
    · rfl

theorem foldl_fixed {α β : Type} (f : α → β → α) (c : α) (l : List β)
    (h : ∀ x ∈ l, f c x = c) : l.foldl f c = c := by
  induction l with
  | nil => rfl
  | cons a l ih =>
    simp only [List.foldl_cons, h a (by simp)]
    exact ih (fun x hx => h x (by simp [hx]))

theorem get?_eq_some_getN (l : List Nat) (i : Nat) (h : i < l.length) :
    l.get? i = some (getN l i) := by
  simp [getN, List.getD_eq_getElem?_getD, List.getElem?_eq_getElem h]

theorem idx1_ge_one (idx : List Nat) (n : Nat) (h0 : getN idx 0 = 1)
    (hmono : ∀ k, k < n → getN idx k ≤ getN idx (k + 1)) :
    ∀ m, m ≤ n → 1 ≤ getN idx m := by
  intro m
  induction m with
  | zero => intro _; omega
  | succ k ih =>
    intro hk
    have h1 := hmono k (by omega)
    have h2 := ih (by omega)
    omega

theorem getElemQ_toList (l : List Nat) (i : Nat) (h : i < l.length) :
    l[i]?.toList = [getN l i] := by
  simp [List.getElem?_eq_getElem h, getN, List.getD_eq_getElem?_getD]

theorem update_face_vertices_identity (n : Nat) (idx lst : List Nat)
    (hlen : idx.length = n + 1) (h0 : getN idx 0 = 1)
    (hmono : ∀ k, k < n → getN idx k ≤ getN idx (k + 1))
    (hlst : lst.length = getN idx n - 1) :
    update_face_vertices n idx lst (some (List.range n)) = (idx, lst) := by
  have key : ∀ m, m ≤ n →
      (List.range m).foldl
        (fun (acc : List Nat × List Nat × Nat) (ii : Nat) =>
          (acc.1 ++ [acc.2.2 + (getN idx (getN (List.range n) ii + 1) -
              getN idx (getN (List.range n) ii)) + 1],
           acc.2.1 ++ ((lst.drop (getN idx (getN (List.range n) ii) - 1)).take
              (getN idx (getN (List.range n) ii + 1) -
                getN idx (getN (List.range n) ii))),
           acc.2.2 + (getN idx (getN (List.range n) ii + 1) -
              getN idx (getN (List.range n) ii)))) ([1], [], 0) =
        (idx.take (m + 1), lst.take (getN idx m - 1), getN idx m - 1) := by
    intro m
    induction m with
    | zero =>
      intro _
      have : idx.take 1 = [getN idx 0] := by
        rw [List.take_succ, List.take_zero, getElemQ_toList idx 0 (by omega)]
        rfl
      simp [this, h0]
    | succ k ih =>
      intro hk
      rw [List.range_succ, List.foldl_append, ih (by omega)]
      have hjj : getN (List.range n) k = k := by
        simp [getN, List.getD_eq_getElem?_getD, List.getElem?_eq_getElem, List.getElem?_range (by omega : k < n)]
      have hk1 : 1 ≤ getN idx k := idx1_ge_one idx n h0 hmono k (by omega)
      have hmk := hmono k (by omega)
      simp only [List.foldl_cons, List.foldl_nil, hjj]
      refine Prod.ext ?_ (Prod.ext ?_ ?_)
      · show idx.take (k+1) ++ [getN idx k - 1 + (getN idx (k+1) - getN idx k) + 1] = idx.take (k+1+1)
        have harith : getN idx k - 1 + (getN idx (k+1) - getN idx k) + 1 = getN idx (k+1) := by omega
        rw [harith, List.take_succ (n := k+1), getElemQ_toList idx (k+1) (by omega)]
      · show lst.take (getN idx k - 1) ++ (lst.drop (getN idx k - 1)).take (getN idx (k+1) - getN idx k) = lst.take (getN idx (k+1) - 1)
        rw [← List.take_add]
        congr 1
        omega
      · show getN idx k - 1 + (getN idx (k+1) - getN idx k) = getN idx (k+1) - 1
        omega
  have t1 : idx.take (n + 1) = idx := by rw [← hlen]; exact List.take_length idx
  have t2 : lst.take (getN idx n - 1) = lst := by rw [← hlst]; exact List.take_length lst
  simp only [update_face_vertices]
  rw [key n le_rfl]
  simp [t1, t2]

theorem getN_range {n i : Nat} (h : i < n) : getN (List.range n) i = i := by
  simp [getN, List.getD_eq_getElem?_getD, List.getElem?_range h]

theorem gather_range_identity {α : Type} (l : List α) (d : α) :
    (List.range l.length).map (fun f => l.getD (getN (List.range l.length) f) d) = l := by
  have h : ∀ f ∈ List.range l.length,
      l.getD (getN (List.range l.length) f) d = l.getD f d := by
    intro f hf
    rw [getN_range (List.mem_range.mp hf)]
  rw [List.map_congr_left h, map_getD_range]

theorem update_family_identity (n N : Nat) (fam : List Nat) (hn : n ≤ N)
    (hlen : fam.length = n) :
    update_family n (List.range N) (some fam) = some fam := by
  simp only [update_family, Option.map_some']
  congr 1
  have h : ∀ ii ∈ List.range n, getN fam (getN (List.range N) ii) = getN fam ii := by
    intro ii hii
    rw [getN_range (lt_of_lt_of_le (List.mem_range.mp hii) hn)]
  rw [List.map_congr_left h, ← hlen]
  exact map_getD_range fam 0

theorem new_cell_id_identity (ncwg n_cells : Nat) (h : n_cells ≤ ncwg) :
    (List.range' n_cells (ncwg - n_cells)).foldl (fun a ii => a.set ii ii)
      ((List.range n_cells).foldl
        (fun a ii => a.set (getN (List.range ncwg) ii) ii) (List.range ncwg)) =
    List.range ncwg := by
  have inner : (List.range n_cells).foldl
      (fun a ii => a.set (getN (List.range ncwg) ii) ii) (List.range ncwg) =
      List.range ncwg := by
    apply foldl_fixed
    intro ii hii
    rw [getN_range (lt_of_lt_of_le (List.mem_range.mp hii) h)]
    exact range_set_self ncwg ii
  rw [inner]
  apply foldl_fixed
  intro ii _
  exact range_set_self ncwg ii

theorem cc_fold_identity (n ncwg : Nat) (idx lst : List Nat) (hn : n ≤ ncwg)
    (hlen : idx.length = n + 1) (h0 : getN idx 0 = 1)
    (hmono : ∀ k, k < n → getN idx k ≤ getN idx (k + 1))
    (hlst : lst.length = getN idx n - 1)
    (hv : ∀ v ∈ lst, 1 ≤ v ∧ v ≤ ncwg) :
    (List.range n).foldl
      (fun (acc : List Nat × List Nat × Nat) (ii : Nat) =>
        (acc.1 ++ [acc.2.2 + (getN idx (getN (List.range ncwg) ii + 1) -
            getN idx (getN (List.range ncwg) ii)) + 1],
         acc.2.1 ++ (((lst.drop (getN idx (getN (List.range ncwg) ii) - 1)).take
            (getN idx (getN (List.range ncwg) ii + 1) -
              getN idx (getN (List.range ncwg) ii))).map
            (fun v => getN (List.range ncwg) (v - 1) + 1)),
         acc.2.2 + (getN idx (getN (List.range ncwg) ii + 1) -
            getN idx (getN (List.range ncwg) ii)))) ([1], [], 0) =
      (idx, lst, getN idx n - 1) := by
  have key : ∀ m, m ≤ n →
      (List.range m).foldl
        (fun (acc : List Nat × List Nat × Nat) (ii : Nat) =>
          (acc.1 ++ [acc.2.2 + (getN idx (getN (List.range ncwg) ii + 1) -
              getN idx (getN (List.range ncwg) ii)) + 1],
           acc.2.1 ++ (((lst.drop (getN idx (getN (List.range ncwg) ii) - 1)).take
              (getN idx (getN (List.range ncwg) ii + 1) -
                getN idx (getN (List.range ncwg) ii))).map
              (fun v => getN (List.range ncwg) (v - 1) + 1)),
           acc.2.2 + (getN idx (getN (List.range ncwg) ii + 1) -
              getN idx (getN (List.range ncwg) ii)))) ([1], [], 0) =
        (idx.take (m + 1), lst.take (getN idx m - 1), getN idx m - 1) := by
    intro m
    induction m with
    | zero =>
      intro _
      have h1 : idx.take 1 = [getN idx 0] := by
        rw [List.take_succ, List.take_zero, getElemQ_toList idx 0 (by omega)]
        rfl
      simp [h1, h0]
    | succ k ih =>
      intro hk
      rw [List.range_succ, List.foldl_append, ih (by omega)]
      have hjj : getN (List.range ncwg) k = k := getN_range (by omega)
      have hk1 : 1 ≤ getN idx k := idx1_ge_one idx n h0 hmono k (by omega)
      have hmk := hmono k (by omega)
      simp only [List.foldl_cons, List.foldl_nil, hjj]
      have hseg : ((lst.drop (getN idx k - 1)).take (getN idx (k+1) - getN idx k)).map
          (fun v => getN (List.range ncwg) (v - 1) + 1) =
          (lst.drop (getN idx k - 1)).take (getN idx (k+1) - getN idx k) := by
        have hmem : ∀ v ∈ (lst.drop (getN idx k - 1)).take (getN idx (k+1) - getN idx k),
            getN (List.range ncwg) (v - 1) + 1 = v := by
          intro v hvm
          have hvl : v ∈ lst := List.mem_of_mem_drop (List.mem_of_mem_take hvm)
          have := hv v hvl
          rw [getN_range (by omega)]
          omega
        rw [List.map_congr_left hmem, List.map_id']
      refine Prod.ext ?_ (Prod.ext ?_ ?_)
      · show idx.take (k+1) ++ [getN idx k - 1 + (getN idx (k+1) - getN idx k) + 1] =
          idx.take (k+1+1)
        have harith : getN idx k - 1 + (getN idx (k+1) - getN idx k) + 1 = getN idx (k+1) := by
          omega
        rw [harith, List.take_succ (n := k+1), getElemQ_toList idx (k+1) (by omega)]
      · show lst.take (getN idx k - 1) ++
            ((lst.drop (getN idx k - 1)).take (getN idx (k+1) - getN idx k)).map
              (fun v => getN (List.range ncwg) (v - 1) + 1) =
            lst.take (getN idx (k+1) - 1)
        rw [hseg, ← List.take_add]
        congr 1
        omega
      · show getN idx k - 1 + (getN idx (k+1) - getN idx k) = getN idx (k+1) - 1
        omega
  have t1 : idx.take (n + 1) = idx := by rw [← hlen]; exact List.take_length idx
  have t2 : lst.take (getN idx n - 1) = lst := by rw [← hlst]; exact List.take_length lst
  rw [key n le_rfl, t1, t2]

theorem update_family_identity_opt (n : Nat) (fam : Option (List Nat))
    (h : ∀ f ∈ fam, f.length = n) :
    update_family n (List.range n) fam = fam := by
  cases fam with
  | none => rfl
  | some f => exact update_family_identity n n f le_rfl (h f rfl)

theorem gather_pairs_identity (l : List (Nat × Nat)) :
    (List.range l.length).map (fun f => getP l (getN (List.range l.length) f)) = l := by
  simpa [getP] using gather_range_identity l ((0 : Nat), (0 : Nat))

theorem gather_nats_identity (l : List Nat) :
    (List.range l.length).map (fun f => getN l (getN (List.range l.length) f)) = l := by
  simpa [getN] using gather_range_identity l 0

theorem update_faces_identity_fields (mesh : Mesh)
    (hiv : idx1Wf mesh.i_face_vtx_idx mesh.i_face_vtx_lst mesh.i_face_cells.length)
    (hbv : idx1Wf mesh.b_face_vtx_idx mesh.b_face_vtx_lst mesh.b_face_cells.length)
    (hif : ∀ f ∈ mesh.i_face_family, f.length = mesh.i_face_cells.length)
    (hbf : ∀ f ∈ mesh.b_face_family, f.length = mesh.b_face_cells.length) :
    cs_renumber_update_faces mesh (some (List.range mesh.i_face_cells.length))
      (some (List.range mesh.b_face_cells.length)) =
    { mesh with
      global_i_face_num := update_global_num mesh.i_face_cells.length
        (List.range mesh.i_face_cells.length) mesh.global_i_face_num
      global_b_face_num := update_global_num mesh.b_face_cells.length
        (List.range mesh.b_face_cells.length) mesh.global_b_face_num } := by
  obtain ⟨hi1, hi2, hi3, hi4⟩ := hiv
  obtain ⟨hb1, hb2, hb3, hb4⟩ := hbv
  cases mesh with
  | mk nc ncwg ifc bfc ivi ivl bvi bvl cfam ifam bfam gcn gin gbn cci ccl ifn bfn =>
    simp only at hi1 hi2 hi3 hi4 hb1 hb2 hb3 hb4 hif hbf
    simp only [cs_renumber_update_faces]
    rw [update_face_vertices_identity _ _ _ hi1 hi2 hi3 hi4]
    rw [gather_pairs_identity ifc]
    rw [update_family_identity_opt _ _ hif]
    simp only [Mesh.mk.injEq]
    rw [update_face_vertices_identity _ _ _ hb1 hb2 hb3 hb4]
    rw [gather_nats_identity bfc]
    rw [update_family_identity_opt _ _ hbf]
    simp

theorem update_family_identity_optN (n N : Nat) (hn : n ≤ N) (fam : Option (List Nat))
    (h : ∀ f ∈ fam, f.length = n) :
    update_family n (List.range N) fam = fam := by
  cases fam with
  | none => rfl
  | some f => exact update_family_identity n N f hn (h f rfl)

theorem update_cells_identity_fields (mesh : Mesh)
    (hnc : mesh.n_cells ≤ mesh.n_cells_with_ghosts)
    (hifc : ∀ p ∈ mesh.i_face_cells,
      p.1 < mesh.n_cells_with_ghosts ∧ p.2 < mesh.n_cells_with_ghosts)
    (hbfc : ∀ v ∈ mesh.b_face_cells, 1 ≤ v ∧ v ≤ mesh.n_cells_with_ghosts)
    (hcf : ∀ f ∈ mesh.cell_family, f.length = mesh.n_cells)
    (hcc : ∀ ci ∈ mesh.cell_cells_idx, ∀ cl ∈ mesh.cell_cells_lst,
      idx1Wf ci cl mesh.n_cells ∧ ∀ v ∈ cl, 1 ≤ v ∧ v ≤ mesh.n_cells_with_ghosts) :
    cs_renumber_update_cells mesh (some (List.range mesh.n_cells_with_ghosts)) =
    { mesh with
      b_face_cells := mesh.b_face_cells.map (fun v => v - 1)
      global_cell_num := update_global_num mesh.n_cells
        (List.range mesh.n_cells_with_ghosts) mesh.global_cell_num } := by
  cases mesh with
  | mk nc ncwg ifc bfc ivi ivl bvi bvl cfam ifam bfam gcn gin gbn cci ccl ifn bfn =>
    simp only at hnc hifc hbfc hcf hcc
    simp only [cs_renumber_update_cells]
    rw [new_cell_id_identity ncwg nc hnc]
    have hic : ifc.map (fun p => (getN (List.range ncwg) p.1, getN (List.range ncwg) p.2)) = ifc := by
      have h : ∀ p ∈ ifc, (getN (List.range ncwg) p.1, getN (List.range ncwg) p.2) = p := by
        intro p hp
        obtain ⟨h1, h2⟩ := hifc p hp
        rw [getN_range h1, getN_range h2]
      rw [List.map_congr_left h, List.map_id']
    have hbc : bfc.map (fun v => getN (List.range ncwg) (v - 1)) = bfc.map (fun v => v - 1) := by
      apply List.map_congr_left
      intro v hv
      obtain ⟨h1, h2⟩ := hbfc v hv
      exact getN_range (by omega)
    rw [hic, hbc, update_family_identity_optN nc ncwg hnc cfam hcf]
    simp only [Mesh.mk.injEq]
    cases cci with
    | none => simp
    | some ci =>
      cases ccl with
      | none => simp
      | some cl =>
        obtain ⟨⟨hc1, hc2, hc3, hc4⟩, hcv⟩ := hcc ci rfl cl rfl
        have hfold := cc_fold_identity nc ncwg ci cl hnc hc1 hc2 hc3 hc4 hcv
        simp only [hfold]
        simp

theorem identity_rewrite_changes_b_face_cells :
    (cs_renumber_update_cells
      (cs_renumber_update_faces c2_mesh (some (List.range c2_mesh.i_face_cells.length))
        (some (List.range c2_mesh.b_face_cells.length)))
      (some (List.range c2_mesh.n_cells_with_ghosts))).b_face_cells ≠
      c2_mesh.b_face_cells := by
  decide

theorem identity_rewrite_amended (mesh : Mesh)
    (hiv : idx1Wf mesh.i_face_vtx_idx mesh.i_face_vtx_lst mesh.i_face_cells.length)
    (hbv : idx1Wf mesh.b_face_vtx_idx mesh.b_face_vtx_lst mesh.b_face_cells.length)
    (hif : ∀ f ∈ mesh.i_face_family, f.length = mesh.i_face_cells.length)
    (hbf : ∀ f ∈ mesh.b_face_family, f.length = mesh.b_face_cells.length)
    (hnc : mesh.n_cells ≤ mesh.n_cells_with_ghosts)
    (hifc : ∀ p ∈ mesh.i_face_cells,
      p.1 < mesh.n_cells_with_ghosts ∧ p.2 < mesh.n_cells_with_ghosts)
    (hbfc : ∀ v ∈ mesh.b_face_cells, 1 ≤ v ∧ v ≤ mesh.n_cells_with_ghosts)
    (hcf : ∀ f ∈ mesh.cell_family, f.length = mesh.n_cells)
    (hcc : ∀ ci ∈ mesh.cell_cells_idx, ∀ cl ∈ mesh.cell_cells_lst,
      idx1Wf ci cl mesh.n_cells ∧ ∀ v ∈ cl, 1 ≤ v ∧ v ≤ mesh.n_cells_with_ghosts) :
    (cs_renumber_update_cells
      (cs_renumber_update_faces mesh (some (List.range mesh.i_face_cells.length))
        (some (List.range mesh.b_face_cells.length)))
      (some (List.range mesh.n_cells_with_ghosts))).i_face_cells = mesh.i_face_cells ∧
    (cs_renumber_update_cells
      (cs_renumber_update_faces mesh (some (List.range mesh.i_face_cells.length))
        (some (List.range mesh.b_face_cells.length)))
      (some (List.range mesh.n_cells_with_ghosts))).b_face_cells =
      mesh.b_face_cells.map (fun v => v - 1) ∧
    (cs_renumber_update_cells
      (cs_renumber_update_faces mesh (some (List.range mesh.i_face_cells.length))
        (some (List.range mesh.b_face_cells.length)))
      (some (List.range mesh.n_cells_with_ghosts))).i_face_vtx_idx = mesh.i_face_vtx_idx ∧
    (cs_renumber_update_cells
      (cs_renumber_update_faces mesh (some (List.range mesh.i_face_cells.length))
        (some (List.range mesh.b_face_cells.length)))
      (some (List.range mesh.n_cells_with_ghosts))).i_face_vtx_lst = mesh.i_face_vtx_lst ∧
    (cs_renumber_update_cells
      (cs_renumber_update_faces mesh (some (List.range mesh.i_face_cells.length))
        (some (List.range mesh.b_face_cells.length)))
      (some (List.range mesh.n_cells_with_ghosts))).b_face_vtx_idx = mesh.b_face_vtx_idx ∧
    (cs_renumber_update_cells
      (cs_renumber_update_faces mesh (some (List.range mesh.i_face_cells.length))
        (some (List.range mesh.b_face_cells.length)))
      (some (List.range mesh.n_cells_with_ghosts))).b_face_vtx_lst = mesh.b_face_vtx_lst ∧
    (cs_renumber_update_cells
      (cs_renumber_update_faces mesh (some (List.range mesh.i_face_cells.length))
        (some (List.range mesh.b_face_cells.length)))
      (some (List.range mesh.n_cells_with_ghosts))).cell_family = mesh.cell_family ∧
    (cs_renumber_update_cells
      (cs_renumber_update_faces mesh (some (List.range mesh.i_face_cells.length))
        (some (List.range mesh.b_face_cells.length)))
      (some (List.range mesh.n_cells_with_ghosts))).i_face_family = mesh.i_face_family ∧
    (cs_renumber_update_cells
      (cs_renumber_update_faces mesh (some (List.range mesh.i_face_cells.length))
        (some (List.range mesh.b_face_cells.length)))
      (some (List.range mesh.n_cells_with_ghosts))).b_face_family = mesh.b_face_family ∧
    (cs_renumber_update_cells
      (cs_renumber_update_faces mesh (some (List.range mesh.i_face_cells.length))
        (some (List.range mesh.b_face_cells.length)))
      (some (List.range mesh.n_cells_with_ghosts))).cell_cells_idx = mesh.cell_cells_idx ∧
    (cs_renumber_update_cells
      (cs_renumber_update_faces mesh (some (List.range mesh.i_face_cells.length))
        (some (List.range mesh.b_face_cells.length)))
      (some (List.range mesh.n_cells_with_ghosts))).cell_cells_lst = mesh.cell_cells_lst := by
  rw [update_faces_identity_fields mesh hiv hbv hif hbf]
  rw [update_cells_identity_fields
    ({ mesh with
       global_i_face_num := update_global_num mesh.i_face_cells.length
         (List.range mesh.i_face_cells.length) mesh.global_i_face_num
       global_b_face_num := update_global_num mesh.b_face_cells.length
         (List.range mesh.b_face_cells.length) mesh.global_b_face_num })
    (by simpa using hnc) (by simpa using hifc) (by simpa using hbfc)
    (by simpa using hcf) (by simpa using hcc)]
  simp

theorem identity_rewrite_amended_witness :
    (cs_renumber_update_cells
      (cs_renumber_update_faces c2w_mesh (some (List.range c2w_mesh.i_face_cells.length))
        (some (List.range c2w_mesh.b_face_cells.length)))
      (some (List.range c2w_mesh.n_cells_with_ghosts))).i_face_cells = c2w_mesh.i_face_cells ∧
    (cs_renumber_update_cells
      (cs_renumber_update_faces c2w_mesh (some (List.range c2w_mesh.i_face_cells.length))
        (some (List.range c2w_mesh.b_face_cells.length)))
      (some (List.range c2w_mesh.n_cells_with_ghosts))).b_face_cells = c2w_mesh.b_face_cells.map (fun v => v - 1) ∧
    (cs_renumber_update_cells
      (cs_renumber_update_faces c2w_mesh (some (List.range c2w_mesh.i_face_cells.length))
        (some (List.range c2w_mesh.b_face_cells.length)))
      (some (List.range c2w_mesh.n_cells_with_ghosts))).i_face_vtx_idx = c2w_mesh.i_face_vtx_idx ∧
    (cs_renumber_update_cells
      (cs_renumber_update_faces c2w_mesh (some (List.range c2w_mesh.i_face_cells.length))
        (some (List.range c2w_mesh.b_face_cells.length)))
      (some (List.range c2w_mesh.n_cells_with_ghosts))).i_face_vtx_lst = c2w_mesh.i_face_vtx_lst ∧
    (cs_renumber_update_cells
      (cs_renumber_update_faces c2w_mesh (some (List.range c2w_mesh.i_face_cells.length))
        (some (List.range c2w_mesh.b_face_cells.length)))
      (some (List.range c2w_mesh.n_cells_with_ghosts))).b_face_vtx_idx = c2w_mesh.b_face_vtx_idx ∧
    (cs_renumber_update_cells
      (cs_renumber_update_faces c2w_mesh (some (List.range c2w_mesh.i_face_cells.length))
        (some (List.range c2w_mesh.b_face_cells.length)))
      (some (List.range c2w_mesh.n_cells_with_ghosts))).b_face_vtx_lst = c2w_mesh.b_face_vtx_lst ∧
    (cs_renumber_update_cells
      (cs_renumber_update_faces c2w_mesh (some (List.range c2w_mesh.i_face_cells.length))
        (some (List.range c2w_mesh.b_face_cells.length)))
      (some (List.range c2w_mesh.n_cells_with_ghosts))).cell_family = c2w_mesh.cell_family ∧
    (cs_renumber_update_cells
      (cs_renumber_update_faces c2w_mesh (some (List.range c2w_mesh.i_face_cells.length))
        (some (List.range c2w_mesh.b_face_cells.length)))
      (some (List.range c2w_mesh.n_cells_with_ghosts))).i_face_family = c2w_mesh.i_face_family ∧
    (cs_renumber_update_cells
      (cs_renumber_update_faces c2w_mesh (some (List.range c2w_mesh.i_face_cells.length))
        (some (List.range c2w_mesh.b_face_cells.length)))
      (some (List.range c2w_mesh.n_cells_with_ghosts))).b_face_family = c2w_mesh.b_face_family ∧
    (cs_renumber_update_cells
      (cs_renumber_update_faces c2w_mesh (some (List.range c2w_mesh.i_face_cells.length))
        (some (List.range c2w_mesh.b_face_cells.length)))
      (some (List.range c2w_mesh.n_cells_with_ghosts))).cell_cells_idx = c2w_mesh.cell_cells_idx ∧
    (cs_renumber_update_cells
      (cs_renumber_update_faces c2w_mesh (some (List.range c2w_mesh.i_face_cells.length))
        (some (List.range c2w_mesh.b_face_cells.length)))
      (some (List.range c2w_mesh.n_cells_with_ghosts))).cell_cells_lst = c2w_mesh.cell_cells_lst :=
  identity_rewrite_amended c2w_mesh
    (by refine ⟨by decide, by decide, ?_, by decide⟩; decide)
    (by refine ⟨by decide, by decide, ?_, by decide⟩; decide)
    (fun f hf => by cases hf; decide)
    (fun f hf => by cases hf; decide)
    (by decide)
    (by decide)
    (by decide)
    (fun f hf => by cases hf; decide)
    (fun ci hci cl hcl => by
      cases hci
      cases hcl
      exact ⟨⟨by decide, by decide, by decide, by decide⟩, by decide⟩)

theorem multipass_infeasible_iff_and_caller_fallback_witness :
    (renum_face_multipass 3 c3_mesh 2 64 = some MPResult.infeasible ↔
      c3_mesh.i_face_cells.length ≤ 64) ∧
    (c3_mesh.i_face_cells.length ≤ 64 →
      ∃ d, renumber_for_threads 3 2 64 64 IFacesType.multipassAlgo c3_mesh =
            some d ∧
        d.n_i_groups = 1 ∧ d.n_i_threads = 1 ∧ d.applied_new_to_old_i = none ∧
        d.mesh.i_face_numbering = c3_mesh.i_face_numbering ∧
        d.mesh.i_face_cells = c3_mesh.i_face_cells ∧
        d.mesh.i_face_vtx_idx = c3_mesh.i_face_vtx_idx ∧
        d.mesh.i_face_vtx_lst = c3_mesh.i_face_vtx_lst ∧
        d.mesh.i_face_family = c3_mesh.i_face_family ∧
        d.mesh.global_i_face_num = c3_mesh.global_i_face_num) :=
  multipass_infeasible_iff_and_caller_fallback 3 2 64 64 c3_mesh (by decide)

theorem foldl_range_eq {α : Type} (f : α → Nat → α) (init : α) (n : Nat)
    (g1 g2 : Nat → Nat) (h : ∀ t, t < n → g1 t = g2 t) :
    (List.range n).foldl (fun a t => f a (g1 t)) init =
    (List.range n).foldl (fun a t => f a (g2 t)) init := by
  induction n generalizing init with
  | zero => rfl
  | succ k ih =>
    rw [List.range_succ, List.foldl_append, List.foldl_append]
    simp only [List.foldl_cons, List.foldl_nil]
    rw [ih init (fun t ht => h t (by omega)), h k (by omega)]

theorem sum_fold_zero_iff (n : Nat) (l : List Nat) :
    (List.range n).foldl (fun a t => a + getN l t) 0 = 0 ↔
    ∀ t, t < n → getN l t = 0 := by
  induction n with
  | zero => simp
  | succ k ih =>
    rw [List.range_succ, List.foldl_append]
    simp only [List.foldl_cons, List.foldl_nil]
    constructor
    · intro h
      have h1 : (List.range k).foldl (fun a t => a + getN l t) 0 = 0 := by omega
      have h2 : getN l k = 0 := by omega
      intro t ht
      rcases Nat.lt_succ_iff_lt_or_eq.mp ht with h' | h'
      · exact (ih.mp h1) t h'
      · subst h'; exact h2
    · intro h
      rw [ih.mpr (fun t ht => h t (by omega)), h k (by omega)]

theorem max_fold_zero (n : Nat) (l : List Nat) (h : ∀ t, t < n → getN l t = 0) :
    (List.range n).foldl (fun a t => max a (getN l t)) 0 = 0 := by
  induction n with
  | zero => rfl
  | succ k ih =>
    rw [List.range_succ, List.foldl_append]
    simp only [List.foldl_cons, List.foldl_nil]
    rw [ih (fun t ht => h t (by omega)), h k (by omega)]
    simp

theorem le_foldl_max (l : List Nat) (f : Nat → Nat) (init : Nat) :
    init ≤ l.foldl (fun a t => max a (f t)) init := by
  induction l generalizing init with
  | nil => exact le_rfl
  | cons x xs ih => exact le_trans (le_max_left init (f x)) (ih (max init (f x)))

theorem mem_le_foldl_max (l : List Nat) (f : Nat → Nat) (init : Nat) (k : Nat)
    (hk : k ∈ l) : f k ≤ l.foldl (fun a t => max a (f t)) init := by
  induction l generalizing init with
  | nil => cases hk
  | cons x xs ih =>
    rcases List.mem_cons.mp hk with h | h
    · subst h
      exact le_trans (le_max_right init (f k)) (le_foldl_max xs f _)
    · exact ih (max init (f x)) h

theorem sum_le_n_mul_max (n : Nat) (l : List Nat) :
    (List.range n).foldl (fun a t => a + getN l t) 0 ≤
      n * (List.range n).foldl (fun a t => max a (getN l t)) 0 := by
  have key : ∀ m, m ≤ n →
      (List.range m).foldl (fun a t => a + getN l t) 0 ≤
        m * (List.range n).foldl (fun a t => max a (getN l t)) 0 := by
    intro m
    induction m with
    | zero => intro _; simp
    | succ k ih =>
      intro hk
      rw [List.range_succ, List.foldl_append]
      simp only [List.foldl_cons, List.foldl_nil]
      have h1 := ih (by omega)
      have h2 : getN l k ≤ (List.range n).foldl (fun a t => max a (getN l t)) 0 :=
        mem_le_foldl_max (List.range n) (fun t => getN l t) 0 k
          (List.mem_range.mpr (by omega))
      calc (List.range k).foldl (fun a t => a + getN l t) 0 + getN l k
          ≤ k * (List.range n).foldl (fun a t => max a (getN l t)) 0 +
            (List.range n).foldl (fun a t => max a (getN l t)) 0 := by omega
        _ = (k+1) * (List.range n).foldl (fun a t => max a (getN l t)) 0 := by ring
  exact key n le_rfl

theorem getN_set_self {l : List Nat} {i v : Nat} (h : i < l.length) :
    getN (l.set i v) i = v := by
  simp [getN, List.getD_eq_getElem?_getD, List.getElem?_set_self, h]

theorem getN_set_ne {l : List Nat} {i j v : Nat} (h : i ≠ j) :
    getN (l.set i v) j = getN l j := by
  simp [getN, List.getD_eq_getElem?_getD, List.getElem?_set_ne h]

theorem assign_init_zero (k : Nat) (l : List Nat) (hk : k ≤ l.length) :
    ∀ u, u < k → getN ((List.range k).foldl (fun a t => a.set t 0) l) u = 0 := by
  induction k with
  | zero => intro u hu; omega
  | succ j ih =>
    intro u hu
    rw [List.range_succ, List.foldl_append]
    simp only [List.foldl_cons, List.foldl_nil]
    have hlen : ((List.range j).foldl (fun a t => a.set t 0) l).length = l.length := by
      clear ih hu
      induction j with
      | zero => rfl
      | succ i ihi =>
        rw [List.range_succ, List.foldl_append]
        simp only [List.foldl_cons, List.foldl_nil]
        rw [List.length_set, ihi (by omega)]
    rcases Nat.lt_succ_iff_lt_or_eq.mp hu with h' | h'
    · rw [getN_set_ne (by omega)]
      exact ih (by omega) u h'
    · subst h'
      exact getN_set_self (by omega)

theorem fold_set_length (k v : Nat) (l : List Nat) :
    ((List.range k).foldl (fun a t => a.set t v) l).length = l.length := by
  induction k with
  | zero => rfl
  | succ j ih =>
    rw [List.range_succ, List.foldl_append]
    simp only [List.foldl_cons, List.foldl_nil]
    rw [List.length_set, ih]

theorem mpAssignStep_fst (n_i n_g g : Nat) (lfc : List (Nat × Nat)) (idx : List Nat)
    (s : Nat × AssignOut) (p : Nat × Nat) :
    (mpAssignStep n_i n_g g lfc idx s p).1 =
      assignWalk idx (getP lfc p.2).1 n_g s.1 := by
  simp only [mpAssignStep]
  split <;> rfl

theorem mpAssignStep_n_t_length (n_i n_g g : Nat) (lfc : List (Nat × Nat))
    (idx : List Nat) (s : Nat × AssignOut) (p : Nat × Nat) :
    (mpAssignStep n_i n_g g lfc idx s p).2.n_t_faces.length =
      s.2.n_t_faces.length := by
  simp only [mpAssignStep]
  split <;> simp

theorem mpAssignStep_n_t_agree (n_i n_g g : Nat) (lfc : List (Nat × Nat))
    (idx : List Nat) (s1 s2 : Nat × AssignOut) (p : Nat × Nat)
    (hfst : s1.1 = s2.1)
    (hl1 : n_g ≤ s1.2.n_t_faces.length) (hl2 : n_g ≤ s2.2.n_t_faces.length)
    (hagr : ∀ u, u < n_g → getN s1.2.n_t_faces u = getN s2.2.n_t_faces u) :
    ∀ u, u < n_g →
      getN (mpAssignStep n_i n_g g lfc idx s1 p).2.n_t_faces u =
      getN (mpAssignStep n_i n_g g lfc idx s2 p).2.n_t_faces u := by
  intro u hu
  simp only [mpAssignStep, hfst]
  split
  · by_cases ht : assignWalk idx (getP lfc p.2).1 n_g s2.1 = u
    · subst ht
      rw [getN_set_self (by omega), getN_set_self (by omega), hagr _ hu]
    · rw [getN_set_ne ht, getN_set_ne ht]
      exact hagr u hu
  · exact hagr u hu

theorem assign_fold_agree (n_i n_g g : Nat) (lfc : List (Nat × Nat)) (idx : List Nat)
    (ps : List (Nat × Nat)) :
    ∀ (s1 s2 : Nat × AssignOut),
      s1.1 = s2.1 →
      n_g ≤ s1.2.n_t_faces.length → n_g ≤ s2.2.n_t_faces.length →
      (∀ u, u < n_g → getN s1.2.n_t_faces u = getN s2.2.n_t_faces u) →
      ∀ u, u < n_g →
        getN ((ps.foldl (mpAssignStep n_i n_g g lfc idx) s1)).2.n_t_faces u =
        getN ((ps.foldl (mpAssignStep n_i n_g g lfc idx) s2)).2.n_t_faces u := by
  induction ps with
  | nil => intro s1 s2 _ _ _ h3; exact h3
  | cons p rest ih =>
    intro s1 s2 h1 hl1 hl2 h3
    simp only [List.foldl_cons]
    apply ih
    · rw [mpAssignStep_fst, mpAssignStep_fst, h1]
    · rw [mpAssignStep_n_t_length]; exact hl1
    · rw [mpAssignStep_n_t_length]; exact hl2
    · exact mpAssignStep_n_t_agree n_i n_g g lfc idx s1 s2 p h1 hl1 hl2 h3

theorem assign_n_t_agree (n_i n_g g : Nat) (fl : List Nat) (lfc : List (Nat × Nat))
    (idx : List Nat) (f1 f2 : List Int) (n1 n2 t1 t2 : List Nat)
    (hl1 : n_g ≤ n1.length) (hl2 : n_g ≤ n2.length) :
    ∀ u, u < n_g →
      getN (renum_face_multipass_assign n_i n_g g fl lfc f1 n1 t1 idx).n_t_faces u =
      getN (renum_face_multipass_assign n_i n_g g fl lfc f2 n2 t2 idx).n_t_faces u := by
  intro u hu
  simp only [renum_face_multipass_assign]
  refine assign_fold_agree n_i n_g g lfc idx fl.enum
    (0, AssignOut.mk f1 ((List.range n_g).foldl (fun a t => a.set t 0) n1)
        ((List.range n_g).foldl (fun a t => a.set t fl.length) t1))
    (0, AssignOut.mk f2 ((List.range n_g).foldl (fun a t => a.set t 0) n2)
        ((List.range n_g).foldl (fun a t => a.set t fl.length) t2))
    rfl ?_ ?_ ?_ u hu
  · show n_g ≤ ((List.range n_g).foldl (fun a t => a.set t 0) n1).length
    rw [fold_set_length]; exact hl1
  · show n_g ≤ ((List.range n_g).foldl (fun a t => a.set t 0) n2).length
    rw [fold_set_length]; exact hl2
  · intro v hv
    show getN ((List.range n_g).foldl (fun a t => a.set t 0) n1) v =
      getN ((List.range n_g).foldl (fun a t => a.set t 0) n2) v
    rw [assign_init_zero n_g n1 hl1 v hv, assign_init_zero n_g n2 hl2 v hv]

theorem assign_n_t_length (n_i n_g g : Nat) (fl : List Nat) (lfc : List (Nat × Nat))
    (idx : List Nat) (f : List Int) (nt tl : List Nat) :
    (renum_face_multipass_assign n_i n_g g fl lfc f nt tl idx).n_t_faces.length =
      nt.length := by
  simp only [renum_face_multipass_assign]
  have key : ∀ (ps : List (Nat × Nat)) (s : Nat × AssignOut),
      (ps.foldl (mpAssignStep n_i n_g g lfc idx) s).2.n_t_faces.length =
        s.2.n_t_faces.length := by
    intro ps
    induction ps with
    | nil => intro s; rfl
    | cons p rest ih =>
      intro s
      simp only [List.foldl_cons]
      rw [ih, mpAssignStep_n_t_length]
  rw [key]
  show ((List.range n_g).foldl (fun a t => a.set t 0) nt).length = nt.length
  exact fold_set_length n_g 0 nt

theorem unbalanceQ_congr (n : Nat) (l1 l2 : List Nat)
    (h : ∀ t, t < n → getN l1 t = getN l2 t) :
    unbalanceQ n l1 = unbalanceQ n l2 := by
  unfold unbalanceQ
  rw [foldl_range_eq (fun a x => max a x) 0 n (getN l1) (getN l2) h,
      foldl_range_eq (fun a x => a + x) 0 n (getN l1) (getN l2) h]

theorem sum_fold_congr (n : Nat) (l1 l2 : List Nat)
    (h : ∀ t, t < n → getN l1 t = getN l2 t) :
    (List.range n).foldl (fun a t => a + getN l1 t) 0 =
      (List.range n).foldl (fun a t => a + getN l2 t) 0 :=
  foldl_range_eq (fun a x => a + x) 0 n (getN l1) (getN l2) h

theorem unbalanceQ_sum_zero (n : Nat) (l : List Nat)
    (h : (List.range n).foldl (fun a t => a + getN l t) 0 = 0) :
    unbalanceQ n l = -1 := by
  unfold unbalanceQ
  rw [max_fold_zero n l ((sum_fold_zero_iff n l).mp h), h]
  norm_num

theorem unbalanceQ_eq_div (n : Nat) (l : List Nat) (hn : 0 < n)
    (hs : (List.range n).foldl (fun a t => a + getN l t) 0 ≠ 0) :
    unbalanceQ n l =
      (((renum_face_multipass_g_unbalance n l).1 : ℚ)) /
        (((renum_face_multipass_g_unbalance n l).2 : ℚ)) := by
  unfold unbalanceQ renum_face_multipass_g_unbalance
  set S := (List.range n).foldl (fun a t => a + getN l t) 0 with hS
  set M := (List.range n).foldl (fun a t => max a (getN l t)) 0 with hM
  have hsq : (S : ℚ) ≠ 0 := Nat.cast_ne_zero.mpr hs
  have hnq : (n : ℚ) ≠ 0 := Nat.cast_ne_zero.mpr (by omega)
  push_cast
  field_simp

theorem unbalanceQ_ge_neg_one (n : Nat) (l : List Nat) (hn : 0 < n) :
    -1 ≤ unbalanceQ n l := by
  by_cases hs : (List.range n).foldl (fun a t => a + getN l t) 0 = 0
  · rw [unbalanceQ_sum_zero n l hs]
  · rw [unbalanceQ_eq_div n l hn hs]
    unfold renum_face_multipass_g_unbalance
    have hle := sum_le_n_mul_max n l
    set S := (List.range n).foldl (fun a t => a + getN l t) 0 with hS
    set M := (List.range n).foldl (fun a t => max a (getN l t)) 0 with hM
    have hspos : (0 : ℚ) < (S : ℚ) := by
      exact_mod_cast Nat.pos_of_ne_zero hs
    have hnum : (0 : ℚ) ≤ (((M * n : Int) - (S : Nat) : Int) : ℚ) := by
      push_cast
      have hq : (S : ℚ) ≤ (M : ℚ) * (n : ℚ) := by
        rw [mul_comm]
        exact_mod_cast hle
      linarith
    calc (-1 : ℚ) ≤ 0 := by norm_num
      _ ≤ _ := div_nonneg hnum (le_of_lt hspos)

theorem ubGtB_eq (x y : Int × Nat) :
    ubGtB x y =
      if x.2 = 0 || y.2 = 0 then false
      else decide (y.1 * (x.2 : Int) < x.1 * (y.2 : Int)) := rfl

theorem mpRedistStep_zero (n_i g : Nat) (relax : Int × Nat) (fl : List Nat)
    (lfc : List (Nat × Nat)) (f : List Int) (nt tl : List Nat) (idx : List Nat)
    (t : Nat) (h : getN nt t = 0) :
    mpRedistStep n_i g relax fl lfc f nt tl 0 idx t = idx := by
  simp [mpRedistStep, h]

theorem redistribute_monotone_aux (n_i n_g g : Nat) (relax : Int × Nat)
    (fl : List Nat) (lfc : List (Nat × Nat)) (idx : List Nat)
    (ft0 : List Int) (nt0 tl0 : List Nat) (hlen : n_g ≤ nt0.length) :
    unbalanceQ n_g (renum_face_multipass_redistribute n_i n_g g relax fl lfc
        (renum_face_multipass_assign n_i n_g g fl lfc ft0 nt0 tl0 idx).f_t_id
        (renum_face_multipass_assign n_i n_g g fl lfc ft0 nt0 tl0 idx).n_t_faces
        (renum_face_multipass_assign n_i n_g g fl lfc ft0 nt0 tl0 idx).t_face_last
        idx).n_t_faces ≤
      unbalanceQ n_g
        (renum_face_multipass_assign n_i n_g g fl lfc ft0 nt0 tl0 idx).n_t_faces := by
  set A := renum_face_multipass_assign n_i n_g g fl lfc ft0 nt0 tl0 idx with hA
  by_cases h2 : n_g < 2
  · rw [renum_face_multipass_redistribute, if_pos h2]
  · have hn : 0 < n_g := by omega
    have hAlen : A.n_t_faces.length = nt0.length := by
      rw [hA]; exact assign_n_t_length n_i n_g g fl lfc idx ft0 nt0 tl0
    simp only [renum_face_multipass_redistribute, h2, if_false]
    set target := (List.range n_g).foldl (fun a t => a + getN A.n_t_faces t) 0 / n_g
      with htarget
    set IDX1 := List.foldl
      (mpRedistStep n_i g relax fl lfc A.f_t_id A.n_t_faces A.t_face_last target)
      idx (List.range (n_g - 1)) with hIDX1
    set O1 := renum_face_multipass_assign n_i n_g g fl lfc A.f_t_id A.n_t_faces
      A.t_face_last IDX1 with hO1
    have hO1len : O1.n_t_faces.length = nt0.length := by
      rw [hO1, assign_n_t_length, hAlen]
    split
    · -- reverted: the reassignment with the original index reproduces the entry counts
      apply le_of_eq
      apply unbalanceQ_congr
      intro u hu
      show getN (renum_face_multipass_assign n_i n_g g fl lfc O1.f_t_id O1.n_t_faces
          O1.t_face_last idx).n_t_faces u = getN A.n_t_faces u
      rw [hA]
      exact assign_n_t_agree n_i n_g g fl lfc idx O1.f_t_id ft0 O1.n_t_faces nt0
        O1.t_face_last tl0 (by omega) hlen u hu
    · next hgt =>
      by_cases hs1 : (List.range n_g).foldl (fun a t => a + getN O1.n_t_faces t) 0 = 0
      · rw [unbalanceQ_sum_zero n_g O1.n_t_faces hs1]
        exact unbalanceQ_ge_neg_one n_g A.n_t_faces hn
      · by_cases hs0 : (List.range n_g).foldl (fun a t => a + getN A.n_t_faces t) 0 = 0
        · exfalso
          have hzero : ∀ t, t < n_g → getN A.n_t_faces t = 0 :=
            (sum_fold_zero_iff n_g A.n_t_faces).mp hs0
          have htz : target = 0 := by rw [htarget, hs0]; simp
          have hIDXfix : IDX1 = idx := by
            rw [hIDX1, htz]
            apply foldl_fixed
            intro t ht
            exact mpRedistStep_zero n_i g relax fl lfc A.f_t_id A.n_t_faces
              A.t_face_last idx t (hzero t (by
                have := List.mem_range.mp ht
                omega))
          have hagr : ∀ u, u < n_g → getN O1.n_t_faces u = getN A.n_t_faces u := by
            intro u hu
            rw [hO1, hIDXfix, hA]
            exact assign_n_t_agree n_i n_g g fl lfc idx A.f_t_id ft0 A.n_t_faces nt0
              A.t_face_last tl0 (by omega) hlen u hu
          exact hs1 (by rw [sum_fold_congr n_g O1.n_t_faces A.n_t_faces hagr]; exact hs0)
        · rw [unbalanceQ_eq_div n_g O1.n_t_faces hn hs1,
              unbalanceQ_eq_div n_g A.n_t_faces hn hs0]
          have hub1 : (renum_face_multipass_g_unbalance n_g O1.n_t_faces).2 =
              (List.range n_g).foldl (fun a t => a + getN O1.n_t_faces t) 0 := rfl
          have hub0 : (renum_face_multipass_g_unbalance n_g A.n_t_faces).2 =
              (List.range n_g).foldl (fun a t => a + getN A.n_t_faces t) 0 := rfl
          have hgt' : ¬ ((renum_face_multipass_g_unbalance n_g A.n_t_faces).1 *
              ((renum_face_multipass_g_unbalance n_g O1.n_t_faces).2 : Int) <
              (renum_face_multipass_g_unbalance n_g O1.n_t_faces).1 *
              ((renum_face_multipass_g_unbalance n_g A.n_t_faces).2 : Int)) := by
            intro hlt
            apply hgt
            show ubGtB (renum_face_multipass_g_unbalance n_g O1.n_t_faces)
              (renum_face_multipass_g_unbalance n_g A.n_t_faces) = true
            rw [ubGtB_eq, hub1, hub0, if_neg (by simp [hs1, hs0])]
            simpa using hlt
          rw [div_le_div_iff₀ (by exact_mod_cast Nat.pos_of_ne_zero (hub1 ▸ hs1))
            (by exact_mod_cast Nat.pos_of_ne_zero (hub0 ▸ hs0))]
          exact_mod_cast not_lt.mp hgt'

/-- Claim C4: redistribution is monotonically non-worsening.  The entry
arrays of `_renum_face_multipass_redistribute` are the output of
`_renum_face_multipass_assign` on the same thread cell index (as at its
call site); on return, the per-thread face-count imbalance `max/mean - 1`
is at most the entry imbalance — the adjusted boundaries are kept only
when they do not increase the imbalance, otherwise boundaries and
assignment are reverted.  With fewer than two active threads the arrays
are returned unchanged. -/
theorem redistribute_monotone_non_worsening (n_i n_g g : Nat) (relax : Int × Nat)
    (fl : List Nat) (lfc : List (Nat × Nat)) (idx : List Nat)
    (ft0 : List Int) (nt0 tl0 : List Nat) (hlen : n_g ≤ nt0.length) :
    unbalanceQ n_g (renum_face_multipass_redistribute n_i n_g g relax fl lfc
        (renum_face_multipass_assign n_i n_g g fl lfc ft0 nt0 tl0 idx).f_t_id
        (renum_face_multipass_assign n_i n_g g fl lfc ft0 nt0 tl0 idx).n_t_faces
        (renum_face_multipass_assign n_i n_g g fl lfc ft0 nt0 tl0 idx).t_face_last
        idx).n_t_faces ≤
      unbalanceQ n_g
        (renum_face_multipass_assign n_i n_g g fl lfc ft0 nt0 tl0 idx).n_t_faces ∧
    (n_g < 2 → ∀ (f : List Int) (nt tl i2 : List Nat),
      renum_face_multipass_redistribute n_i n_g g relax fl lfc f nt tl i2 =
        RedistOut.mk f nt tl i2) :=
  ⟨redistribute_monotone_aux n_i n_g g relax fl lfc idx ft0 nt0 tl0 hlen,
   fun h2 f nt tl i2 => by simp [renum_face_multipass_redistribute, h2]⟩

theorem redistribute_monotone_non_worsening_witness :
    unbalanceQ 2 (renum_face_multipass_redistribute 2 2 0 (1, 2) [0, 1]
        [(0, 1), (2, 3)]
        (renum_face_multipass_assign 2 2 0 [0, 1] [(0, 1), (2, 3)] [-1, -1] [0, 0]
          [0, 0] [0, 2, 4]).f_t_id
        (renum_face_multipass_assign 2 2 0 [0, 1] [(0, 1), (2, 3)] [-1, -1] [0, 0]
          [0, 0] [0, 2, 4]).n_t_faces
        (renum_face_multipass_assign 2 2 0 [0, 1] [(0, 1), (2, 3)] [-1, -1] [0, 0]
          [0, 0] [0, 2, 4]).t_face_last
        [0, 2, 4]).n_t_faces ≤
      unbalanceQ 2
        (renum_face_multipass_assign 2 2 0 [0, 1] [(0, 1), (2, 3)] [-1, -1] [0, 0]
          [0, 0] [0, 2, 4]).n_t_faces ∧
    (2 < 2 → ∀ (f : List Int) (nt tl i2 : List Nat),
      renum_face_multipass_redistribute 2 2 0 (1, 2) [0, 1] [(0, 1), (2, 3)]
        f nt tl i2 = RedistOut.mk f nt tl i2) :=
  redistribute_monotone_non_worsening 2 2 0 (1, 2) [0, 1] [(0, 1), (2, 3)]
    [0, 2, 4] [-1, -1] [0, 0] [0, 0] (by decide)

/-! ## C5: boundary partitioner lemmas -/
theorem getI_set_self {l : List Int} {i : Nat} {v : Int} (h : i < l.length) :
    getI (l.set i v) i = v := by
  simp [getI, List.getD_eq_getElem?_getD, List.getElem?_set_self, h]

theorem getI_set_ne {l : List Int} {i j : Nat} {v : Int} (h : i ≠ j) :
    getI (l.set i v) j = getI l j := by
  simp [getI, List.getD_eq_getElem?_getD, List.getElem?_set_ne h]

theorem bPartState_succ (bfc nto : List Nat) (n subset T k : Nat) :
    bPartState bfc nto n subset T (k + 1) =
      bPartStep bfc nto n subset (bPartState bfc nto n subset T k) k := by
  unfold bPartState
  rw [List.range_succ, List.foldl_append]
  rfl

theorem bPushLoop_spec (bfc nto : List Nat) (n c_id : Nat) :
    ∀ fuel e, n ≤ fuel + e → 0 < e → e < n →
      getN bfc (getN nto (e - 1)) = c_id →
      e ≤ bPushLoop bfc nto n c_id fuel e ∧
      bPushLoop bfc nto n c_id fuel e ≤ n ∧
      (bPushLoop bfc nto n c_id fuel e = n ∨
        (0 < bPushLoop bfc nto n c_id fuel e ∧
          getN bfc (getN nto (bPushLoop bfc nto n c_id fuel e - 1)) = c_id ∧
          getN bfc (getN nto (bPushLoop bfc nto n c_id fuel e)) ≠ c_id)) := by
  intro fuel
  induction fuel with
  | zero => intro e hfe he hen _; omega
  | succ fuel ih =>
    intro e hfe he hen hprev
    by_cases hc : getN bfc (getN nto e) = c_id
    · by_cases hn : e + 1 < n
      · have h := ih (e + 1) (by omega) (by omega) hn (by simpa using hc)
        simpa [bPushLoop, hc, hn] using ⟨by omega, h.2⟩
      · have hne : e + 1 = n := by omega
        simp [bPushLoop, hc, hn, hne]
        omega
    · have hr : bPushLoop bfc nto n c_id (fuel + 1) e = e := by
        simp [bPushLoop, hc]
      rw [hr]
      exact ⟨le_refl e, by omega, Or.inr ⟨he, hprev, hc⟩⟩

theorem bPartStep_end (bfc nto : List Nat) (n subset : Nat)
    (s : List Int × Nat) (t : Nat) (hs : s.2 ≤ n) :
    s.2 ≤ (bPartStep bfc nto n subset s t).2 ∧
    (bPartStep bfc nto n subset s t).2 ≤ n ∧
    bGoodCut bfc nto n (bPartStep bfc nto n subset s t).2 := by
  unfold bPartStep
  simp only
  set e1 := if (t + 1) * subset < s.2 then s.2 else (t + 1) * subset with he1
  have he1s : s.2 ≤ e1 := by rw [he1]; split <;> omega
  by_cases h1 : n < e1
  · simp only [h1, if_pos]
    exact ⟨hs, le_refl n, Or.inr (Or.inl (le_refl n))⟩
  · by_cases h2 : 0 < e1 ∧ e1 < n
    · simp only [h1, if_neg, if_pos h2, if_false]
      have hp := bPushLoop_spec bfc nto n (getN bfc (getN nto (e1 - 1))) n e1
        (by omega) h2.1 h2.2 rfl
      refine ⟨le_trans he1s hp.1, hp.2.1, ?_⟩
      rcases hp.2.2 with h | h
      · exact Or.inr (Or.inl (le_of_eq h.symm))
      · exact Or.inr (Or.inr ⟨h.1, by rw [h.2.1]; exact Ne.symm h.2.2⟩)
    · simp only [h1, if_neg, if_neg h2, if_false]
      refine ⟨he1s, by omega, ?_⟩
      rcases Nat.eq_zero_or_pos e1 with h | h
      · exact Or.inl h
      · exact Or.inr (Or.inl (by omega))

theorem bPartState_le (bfc nto : List Nat) (n subset T : Nat) :
    ∀ k, (bPartState bfc nto n subset T k).2 ≤ n := by
  intro k
  induction k with
  | zero => exact Nat.zero_le n
  | succ k ih =>
    rw [bPartState_succ]
    exact (bPartStep_end bfc nto n subset _ k ih).2.1

theorem bPartState_mono_succ (bfc nto : List Nat) (n subset T k : Nat) :
    (bPartState bfc nto n subset T k).2 ≤ (bPartState bfc nto n subset T (k + 1)).2 := by
  rw [bPartState_succ]
  exact (bPartStep_end bfc nto n subset _ k (bPartState_le bfc nto n subset T k)).1

theorem bPartState_mono (bfc nto : List Nat) (n subset T : Nat) {k k' : Nat} (h : k ≤ k') :
    (bPartState bfc nto n subset T k).2 ≤ (bPartState bfc nto n subset T k').2 := by
  induction k' with
  | zero =>
    have hk0 : k = 0 := by omega
    subst hk0; exact le_refl _
  | succ k' ih =>
    rcases Nat.lt_or_ge k (k' + 1) with h' | h'
    · exact le_trans (ih (by omega)) (bPartState_mono_succ bfc nto n subset T k')
    · have hke : k = k' + 1 := by omega
      subst hke; exact le_refl _

theorem bPartState_good (bfc nto : List Nat) (n subset T : Nat) :
    ∀ k, bGoodCut bfc nto n (bPartState bfc nto n subset T k).2 := by
  intro k
  cases k with
  | zero => exact Or.inl rfl
  | succ k =>
    rw [bPartState_succ]
    exact (bPartStep_end bfc nto n subset _ k (bPartState_le bfc nto n subset T k)).2.2

theorem bPartState_fst_length (bfc nto : List Nat) (n subset T : Nat) :
    ∀ k, (bPartState bfc nto n subset T k).1.length = T * 2 := by
  intro k
  induction k with
  | zero => simp [bPartState]
  | succ k ih =>
    rw [bPartState_succ]
    unfold bPartStep
    simp only [List.length_set]
    exact ih

theorem bPartState_entries (bfc nto : List Nat) (n subset T : Nat) :
    ∀ k s, s < k → s < T →
      getI (bPartState bfc nto n subset T k).1 (s * 2) =
        ((bPartState bfc nto n subset T s).2 : Int) ∧
      getI (bPartState bfc nto n subset T k).1 (s * 2 + 1) =
        ((bPartState bfc nto n subset T (s + 1)).2 : Int) := by
  intro k
  induction k with
  | zero => intro s h; omega
  | succ k ih =>
    intro s hs hsT
    rcases Nat.lt_or_ge s k with h | h
    · have hk := ih s h hsT
      rw [bPartState_succ]
      unfold bPartStep
      simp only
      rw [getI_set_ne (by omega), getI_set_ne (by omega),
        getI_set_ne (by omega), getI_set_ne (by omega)]
      exact hk
    · have hsk : s = k := by omega
      subst hsk
      have hlen := bPartState_fst_length bfc nto n subset T s
      have hstep := bPartState_succ bfc nto n subset T s
      rw [hstep]
      unfold bPartStep
      simp only
      constructor
      · rw [getI_set_ne (by omega), getI_set_self (by rw [hlen]; omega)]
      · rw [getI_set_self (by simp only [List.length_set]; rw [hlen]; omega)]

theorem lexLe_head_le {a b : Int} {as bs : List Int}
    (h : lexLe (a :: as) (b :: bs) = true) : a ≤ b := by
  by_cases hab : a < b
  · exact le_of_lt hab
  · by_cases hba : b < a
    · simp [lexLe, hab, hba] at h
    · omega

theorem getN_eq_get (l : List Nat) (i : Nat) (h : i < l.length) :
    getN l i = l.get ⟨i, h⟩ := by
  simp [getN, List.getD_eq_getElem?_getD, List.getElem?_eq_getElem h]

theorem bCells_sorted_le (bfc : List Nat) (i j : Nat) (hij : i ≤ j)
    (hj : j < bfc.length) :
    getN bfc (getN (cs_order_lnum_s
        (fun k => [(getN bfc k : Int), (k : Int)]) bfc.length) i) ≤
    getN bfc (getN (cs_order_lnum_s
        (fun k => [(getN bfc k : Int), (k : Int)]) bfc.length) j) := by
  rcases Nat.eq_or_lt_of_le hij with h | h
  · subst h; exact le_refl _
  · have hlen : (cs_order_lnum_s
        (fun k => [(getN bfc k : Int), (k : Int)]) bfc.length).length = bfc.length :=
      (cs_order_lnum_s_perm _ _).length_eq.trans (List.length_range _)
    have hs := cs_order_lnum_s_sorted
      (fun k => [(getN bfc k : Int), (k : Int)]) bfc.length
    have hr := List.Sorted.rel_get_of_lt hs
      (a := ⟨i, by omega⟩) (b := ⟨j, by omega⟩) (by simp [Fin.lt_def]; omega)
    have hle : ((getN bfc ((cs_order_lnum_s
        (fun k => [(getN bfc k : Int), (k : Int)]) bfc.length).get ⟨i, by omega⟩)) : Int) ≤
        ((getN bfc ((cs_order_lnum_s
        (fun k => [(getN bfc k : Int), (k : Int)]) bfc.length).get ⟨j, by omega⟩)) : Int) :=
      lexLe_head_le hr
    rw [getN_eq_get _ i (by omega), getN_eq_get _ j (by omega)]
    exact_mod_cast hle

theorem subset_budget (n T m : Nat) (hT : 0 < T) :
    n ≤ T * max (n / T + (if 0 < n % T then 1 else 0)) m := by
  have h1 : n ≤ T * (n / T + (if 0 < n % T then 1 else 0)) := by
    have hd : T * (n / T) + n % T = n := Nat.div_add_mod n T
    have hm : n % T < T := Nat.mod_lt _ hT
    by_cases hz : 0 < n % T
    · rw [if_pos hz]
      have he : T * (n / T + 1) = T * (n / T) + T := by ring
      rw [he]
      omega
    · rw [if_neg hz]
      have he : T * (n / T + 0) = T * (n / T) := by ring
      rw [he]
      omega
  exact le_trans h1 (Nat.mul_le_mul_left T (le_max_left _ _))

theorem bPartState_last (bfc nto : List Nat) (n subset T : Nat) (hT : 0 < T)
    (hsub : n ≤ T * subset) :
    (bPartState bfc nto n subset T T).2 = n := by
  obtain ⟨T', rfl⟩ : ∃ T', T = T' + 1 := ⟨T - 1, by omega⟩
  rw [bPartState_succ]
  unfold bPartStep
  simp only
  have hle := bPartState_le bfc nto n subset (T' + 1) T'
  set st := (bPartState bfc nto n subset (T' + 1) T').2 with hst
  set e1 := if (T' + 1) * subset < st then st else (T' + 1) * subset with he1
  have h1 : n ≤ e1 := by
    rw [he1]; split <;> omega
  by_cases h2 : n < e1
  · simp [h2]
  · have he : e1 = n := by omega
    simp [h2, he]

theorem renum_b_eq (mesh : Mesh) (T m : Nat) :
    renum_b_faces_no_share_cell_across_thread mesh T m =
      BRenumOut.mk
        (cs_order_lnum_s (fun i => [(getN mesh.b_face_cells i : Int), (i : Int)])
          mesh.b_face_cells.length)
        1
        (bPartState mesh.b_face_cells
          (cs_order_lnum_s (fun i => [(getN mesh.b_face_cells i : Int), (i : Int)])
            mesh.b_face_cells.length)
          mesh.b_face_cells.length
          (max (mesh.b_face_cells.length / T +
            (if 0 < mesh.b_face_cells.length % T then 1 else 0)) m) T T).1
        (if mesh.b_face_cells.length < 1 then -1 else 0) := rfl

theorem renum_b_groups_eq (mesh : Mesh) (T m : Nat) :
    (renum_b_faces_no_share_cell_across_thread mesh T m).n_b_groups = 1 := rfl

theorem renum_b_nto_eq (mesh : Mesh) (T m : Nat) :
    (renum_b_faces_no_share_cell_across_thread mesh T m).new_to_old_b =
      cs_order_lnum_s (fun i => [(getN mesh.b_face_cells i : Int), (i : Int)])
        mesh.b_face_cells.length := rfl

theorem renum_b_gi_eq (mesh : Mesh) (T m : Nat) :
    (renum_b_faces_no_share_cell_across_thread mesh T m).b_group_index =
      (bPartState mesh.b_face_cells
        (cs_order_lnum_s (fun i => [(getN mesh.b_face_cells i : Int), (i : Int)])
          mesh.b_face_cells.length)
        mesh.b_face_cells.length
        (max (mesh.b_face_cells.length / T +
          (if 0 < mesh.b_face_cells.length % T then 1 else 0)) m) T T).1 := rfl

theorem bPart_no_split (bfc nto : List Nat) (n subset T : Nat)
    (hn : n = bfc.length)
    (hnto : nto = cs_order_lnum_s (fun k => [(getN bfc k : Int), (k : Int)]) bfc.length)
    (t1 t2 i j : Nat) (h12 : t1 < t2) (h2T : t2 < T)
    (hi2 : i < (bPartState bfc nto n subset T (t1 + 1)).2)
    (hj1 : (bPartState bfc nto n subset T t2).2 ≤ j)
    (hj2 : j < (bPartState bfc nto n subset T (t2 + 1)).2) :
    getN bfc (getN nto i) ≠ getN bfc (getN nto j) := by
  have hbj : (bPartState bfc nto n subset T (t1 + 1)).2 ≤ j :=
    le_trans (bPartState_mono bfc nto n subset T (by omega)) hj1
  have hjn : j < n := lt_of_lt_of_le hj2 (bPartState_le bfc nto n subset T (t2 + 1))
  have hbn : (bPartState bfc nto n subset T (t1 + 1)).2 < n := by omega
  rcases bPartState_good bfc nto n subset T (t1 + 1) with h0 | hge | ⟨hbpos, hne⟩
  · omega
  · omega
  · subst hn hnto
    generalize hB : (bPartState bfc
        (cs_order_lnum_s (fun k => [(getN bfc k : Int), (k : Int)]) bfc.length)
        bfc.length subset T (t1 + 1)).2 = B at hi2 hbj hbn hbpos hne
    have h1 := bCells_sorted_le bfc i (B - 1) (by omega) (by omega)
    have h2 := bCells_sorted_le bfc (B - 1) B (by omega) (by omega)
    have h3 := bCells_sorted_le bfc B j hbj hjn
    intro hcontra
    exact hne (by omega)

/-- C5: the boundary-face partitioner produces a single group of contiguous
thread ranges, recorded consecutively in `b_group_index`, that are in order
(each start equals the previous end), start at 0, end at `n_b_faces`, and
stay within bounds; no two boundary faces owned by the same cell fall in
different threads' ranges; and in the 10-face scenario where the 4th and
5th faces in cell-sorted order share a cell, thread 0's range ends at 5,
not 4. -/
theorem boundary_partitioner_single_group_ranges (mesh : Mesh) (T m : Nat) (hT : 0 < T) :
    (renum_b_faces_no_share_cell_across_thread mesh T m).n_b_groups = 1 ∧
    (renum_b_faces_no_share_cell_across_thread mesh T m).b_group_index.length = T * 2 ∧
    getI (renum_b_faces_no_share_cell_across_thread mesh T m).b_group_index 0 = 0 ∧
    getI (renum_b_faces_no_share_cell_across_thread mesh T m).b_group_index
      ((T - 1) * 2 + 1) = (mesh.b_face_cells.length : Int) ∧
    (∀ t, t + 1 < T →
      getI (renum_b_faces_no_share_cell_across_thread mesh T m).b_group_index ((t + 1) * 2) =
      getI (renum_b_faces_no_share_cell_across_thread mesh T m).b_group_index (t * 2 + 1)) ∧
    (∀ t, t < T →
      0 ≤ getI (renum_b_faces_no_share_cell_across_thread mesh T m).b_group_index (t * 2) ∧
      getI (renum_b_faces_no_share_cell_across_thread mesh T m).b_group_index (t * 2) ≤
        getI (renum_b_faces_no_share_cell_across_thread mesh T m).b_group_index (t * 2 + 1) ∧
      getI (renum_b_faces_no_share_cell_across_thread mesh T m).b_group_index (t * 2 + 1) ≤
        (mesh.b_face_cells.length : Int)) ∧
    (∀ t1 t2 i j : Nat, t1 < t2 → t2 < T →
      getI (renum_b_faces_no_share_cell_across_thread mesh T m).b_group_index (t1 * 2) ≤
        (i : Int) →
      (i : Int) <
        getI (renum_b_faces_no_share_cell_across_thread mesh T m).b_group_index (t1 * 2 + 1) →
      getI (renum_b_faces_no_share_cell_across_thread mesh T m).b_group_index (t2 * 2) ≤
        (j : Int) →
      (j : Int) <
        getI (renum_b_faces_no_share_cell_across_thread mesh T m).b_group_index (t2 * 2 + 1) →
      getN mesh.b_face_cells
        (getN (renum_b_faces_no_share_cell_across_thread mesh T m).new_to_old_b i) ≠
      getN mesh.b_face_cells
        (getN (renum_b_faces_no_share_cell_across_thread mesh T m).new_to_old_b j)) ∧
    (renum_b_faces_no_share_cell_across_thread c5_mesh 3 4).b_group_index =
      [0, 5, 5, 8, 8, 10] := by
  rw [renum_b_gi_eq, renum_b_nto_eq, renum_b_groups_eq]
  refine ⟨rfl, bPartState_fst_length _ _ _ _ _ _, ?_, ?_, ?_, ?_, ?_, by decide⟩
  · have h0 := (bPartState_entries mesh.b_face_cells
      (cs_order_lnum_s (fun i => [(getN mesh.b_face_cells i : Int), (i : Int)])
        mesh.b_face_cells.length)
      mesh.b_face_cells.length
      (max (mesh.b_face_cells.length / T +
        (if 0 < mesh.b_face_cells.length % T then 1 else 0)) m) T T 0 hT hT).1
    simpa [bPartState] using h0
  · have hlast := (bPartState_entries mesh.b_face_cells
      (cs_order_lnum_s (fun i => [(getN mesh.b_face_cells i : Int), (i : Int)])
        mesh.b_face_cells.length)
      mesh.b_face_cells.length
      (max (mesh.b_face_cells.length / T +
        (if 0 < mesh.b_face_cells.length % T then 1 else 0)) m) T T (T - 1)
      (by omega) (by omega)).2
    have hTe : T - 1 + 1 = T := by omega
    rw [hTe] at hlast
    rw [hlast, bPartState_last _ _ _ _ _ hT (subset_budget mesh.b_face_cells.length T m hT)]
  · intro t ht
    rw [(bPartState_entries mesh.b_face_cells
        (cs_order_lnum_s (fun i => [(getN mesh.b_face_cells i : Int), (i : Int)])
          mesh.b_face_cells.length)
        mesh.b_face_cells.length
        (max (mesh.b_face_cells.length / T +
          (if 0 < mesh.b_face_cells.length % T then 1 else 0)) m) T T (t + 1)
        (by omega) (by omega)).1,
      (bPartState_entries mesh.b_face_cells
        (cs_order_lnum_s (fun i => [(getN mesh.b_face_cells i : Int), (i : Int)])
          mesh.b_face_cells.length)
        mesh.b_face_cells.length
        (max (mesh.b_face_cells.length / T +
          (if 0 < mesh.b_face_cells.length % T then 1 else 0)) m) T T t
        (by omega) (by omega)).2]
  · intro t ht
    rw [(bPartState_entries mesh.b_face_cells
        (cs_order_lnum_s (fun i => [(getN mesh.b_face_cells i : Int), (i : Int)])
          mesh.b_face_cells.length)
        mesh.b_face_cells.length
        (max (mesh.b_face_cells.length / T +
          (if 0 < mesh.b_face_cells.length % T then 1 else 0)) m) T T t
        (by omega) ht).1,
      (bPartState_entries mesh.b_face_cells
        (cs_order_lnum_s (fun i => [(getN mesh.b_face_cells i : Int), (i : Int)])
          mesh.b_face_cells.length)
        mesh.b_face_cells.length
        (max (mesh.b_face_cells.length / T +
          (if 0 < mesh.b_face_cells.length % T then 1 else 0)) m) T T t
        (by omega) ht).2]
    refine ⟨by exact_mod_cast Nat.zero_le _, ?_, ?_⟩
    · exact_mod_cast bPartState_mono_succ _ _ _ _ _ _
    · exact_mod_cast bPartState_le _ _ _ _ _ _
  · intro t1 t2 i j h12 h2T hi1 hi2 hj1 hj2
    rw [(bPartState_entries mesh.b_face_cells
        (cs_order_lnum_s (fun i => [(getN mesh.b_face_cells i : Int), (i : Int)])
          mesh.b_face_cells.length)
        mesh.b_face_cells.length
        (max (mesh.b_face_cells.length / T +
          (if 0 < mesh.b_face_cells.length % T then 1 else 0)) m) T T t1
        (by omega) (by omega)).2] at hi2
    rw [(bPartState_entries mesh.b_face_cells
        (cs_order_lnum_s (fun i => [(getN mesh.b_face_cells i : Int), (i : Int)])
          mesh.b_face_cells.length)
        mesh.b_face_cells.length
        (max (mesh.b_face_cells.length / T +
          (if 0 < mesh.b_face_cells.length % T then 1 else 0)) m) T T t2
        (by omega) (by omega)).1] at hj1
    rw [(bPartState_entries mesh.b_face_cells
        (cs_order_lnum_s (fun i => [(getN mesh.b_face_cells i : Int), (i : Int)])
          mesh.b_face_cells.length)
        mesh.b_face_cells.length
        (max (mesh.b_face_cells.length / T +
          (if 0 < mesh.b_face_cells.length % T then 1 else 0)) m) T T t2
        (by omega) (by omega)).2] at hj2
    exact bPart_no_split mesh.b_face_cells _ _ _ T rfl rfl t1 t2 i j h12 h2T
      (by exact_mod_cast hi2) (by exact_mod_cast hj1) (by exact_mod_cast hj2)

theorem boundary_partitioner_single_group_ranges_witness :
    (0 : Nat) < 3 ∧
    (renum_b_faces_no_share_cell_across_thread c5_mesh 3 4).n_b_groups = 1 ∧
    (renum_b_faces_no_share_cell_across_thread c5_mesh 3 4).b_group_index =
      [0, 5, 5, 8, 8, 10] :=
  ⟨by decide,
    (boundary_partitioner_single_group_ranges c5_mesh 3 4 (by decide)).1,
    (boundary_partitioner_single_group_ranges c5_mesh 3 4 (by decide)).2.2.2.2.2.2.2⟩

theorem sharesCell_symm {fc : List (Nat × Nat)} {f1 f2 : Nat}
    (h : sharesCell fc f1 f2) : sharesCell fc f2 f1 := by
  unfold sharesCell at h ⊢
  tauto

theorem getD_set_self {α : Type} (l : List α) (d v : α) (i : Nat) (h : i < l.length) :
    (l.set i v).getD i d = v := by
  simp [List.getD_eq_getElem?_getD, List.getElem?_set_self, h]

theorem getD_set_ne {α : Type} (l : List α) (d v : α) {i j : Nat} (h : i ≠ j) :
    (l.set i v).getD j d = l.getD j d := by
  simp [List.getD_eq_getElem?_getD, List.getElem?_set_ne h]

theorem getD_replicate_nil (n c : Nat) :
    (List.replicate n ([] : List Nat)).getD c [] = [] := by
  rcases Nat.lt_or_ge c n with h | h
  · simp [List.getD_eq_getElem?_getD, List.getElem?_eq_getElem,
      (by simpa using h : c < (List.replicate n ([] : List Nat)).length)]
  · simp [List.getD_eq_getElem?_getD, List.getElem?_eq_none,
      (by simpa using h : (List.replicate n ([] : List Nat)).length ≤ c)]

theorem csr_fold_mono (l : List (Nat × (Nat × Nat))) :
    ∀ (R : List (List Nat)) (c f : Nat), f ∈ R.getD c [] →
      f ∈ (l.foldl
        (fun g p =>
          let g1 := g.set p.2.1 (g.getD p.2.1 [] ++ [p.1])
          g1.set p.2.2 (g1.getD p.2.2 [] ++ [p.1]))
        R).getD c [] := by
  induction l with
  | nil => intro R c f h; simpa using h
  | cons p l ih =>
    intro R c f h
    simp only [List.foldl_cons]
    apply ih
    set R1 := R.set p.2.1 (R.getD p.2.1 [] ++ [p.1]) with hR1
    have h1 : f ∈ R1.getD c [] := by
      rw [hR1]
      by_cases hc : p.2.1 = c
      · subst hc
        rcases Nat.lt_or_ge p.2.1 R.length with hlt | hge
        · rw [getD_set_self _ _ _ _ hlt]
          exact List.mem_append_left _ h
        · rw [List.set_eq_of_length_le hge]
          exact h
      · rw [getD_set_ne _ _ _ hc]
        exact h
    by_cases hc : p.2.2 = c
    · subst hc
      rcases Nat.lt_or_ge p.2.2 R1.length with hlt | hge
      · rw [getD_set_self _ _ _ _ hlt]
        exact List.mem_append_left _ h1
      · rw [List.set_eq_of_length_le hge]
        exact h1
    · rw [getD_set_ne _ _ _ hc]
      exact h1

theorem getP_cons_succ (p : Nat × Nat) (l : List (Nat × Nat)) (j : Nat) :
    getP (p :: l) (j + 1) = getP l j := rfl

theorem getP_cons_zero (p : Nat × Nat) (l : List (Nat × Nat)) :
    getP (p :: l) 0 = p := rfl

theorem csr_fold_mem_of (l : List (Nat × Nat)) :
    ∀ (k : Nat) (R : List (List Nat)) (c j : Nat), j < l.length →
      ((getP l j).1 = c ∨ (getP l j).2 = c) →
      (∀ p ∈ l, p.1 < R.length ∧ p.2 < R.length) →
      (k + j) ∈ ((List.enumFrom k l).foldl
        (fun g p =>
          let g1 := g.set p.2.1 (g.getD p.2.1 [] ++ [p.1])
          g1.set p.2.2 (g1.getD p.2.2 [] ++ [p.1]))
        R).getD c [] := by
  induction l with
  | nil => intro k R c j hj; simp at hj
  | cons p l ih =>
    intro k R c j hj hc hend
    obtain ⟨a, b⟩ := p
    have ha : a < R.length := (hend (a, b) (List.mem_cons_self _ _)).1
    have hb : b < R.length := (hend (a, b) (List.mem_cons_self _ _)).2
    simp only [List.enumFrom, List.foldl_cons]
    cases j with
    | zero =>
      rw [getP_cons_zero] at hc
      apply csr_fold_mono
      by_cases hcb : c = b
      · subst hcb
        rw [getD_set_self _ _ _ _ (by simpa [List.length_set] using hb)]
        simp
      · rw [getD_set_ne _ _ _ (fun h => hcb h.symm)]
        have hca : c = a := by
          rcases hc with h | h
          · exact h.symm
          · exact absurd h.symm hcb
        subst hca
        rw [getD_set_self _ _ _ _ ha]
        simp
    | succ j =>
      rw [getP_cons_succ] at hc
      have hadd : k + (j + 1) = (k + 1) + j := by omega
      rw [hadd]
      exact ih (k + 1) _ c j (by simpa using hj) hc (by
        intro q hq
        have := hend q (List.mem_cons_of_mem _ hq)
        simpa [List.length_set] using this)

theorem csr_mem_of (n_ext : Nat) (fc : List (Nat × Nat)) (f c : Nat)
    (hend : ∀ p ∈ fc, p.1 < n_ext ∧ p.2 < n_ext)
    (hf : f < fc.length)
    (hc : (getP fc f).1 = c ∨ (getP fc f).2 = c) :
    f ∈ (csr_graph_create_cell_face n_ext fc).getD c [] := by
  have h := csr_fold_mem_of fc 0 (List.replicate n_ext []) c f hf hc
    (by intro p hp; simpa using hend p hp)
  simpa [csr_graph_create_cell_face, List.enum] using h

theorem ifg_conflict_complete (n_ext : Nat) (fc : List (Nat × Nat)) (grp : List Nat)
    (f x : Nat) (hend : ∀ p ∈ fc, p.1 < n_ext ∧ p.2 < n_ext)
    (hf : f < fc.length) (hx : x ∈ grp) (hsh : sharesCell fc f x) :
    ifg_conflict (csr_graph_create_cell_face n_ext fc) fc grp f = true := by
  unfold ifg_conflict
  rw [List.any_eq_true]
  refine ⟨x, hx, ?_⟩
  simp only [Bool.or_eq_true]
  rcases hsh with h | h | h | h
  · exact Or.inl (List.elem_eq_true_of_mem (csr_mem_of n_ext fc f _ hend hf (Or.inl h)))
  · exact Or.inr (List.elem_eq_true_of_mem (csr_mem_of n_ext fc f _ hend hf (Or.inl h)))
  · exact Or.inl (List.elem_eq_true_of_mem (csr_mem_of n_ext fc f _ hend hf (Or.inr h)))
  · exact Or.inr (List.elem_eq_true_of_mem (csr_mem_of n_ext fc f _ hend hf (Or.inr h)))

theorem getN_append_left (l1 l2 : List Nat) (k : Nat) (h : k < l1.length) :
    getN (l1 ++ l2) k = getN l1 k := by
  simp [getN, List.getD_eq_getElem?_getD, List.getElem?_append_left h]

theorem getN_append_last (l1 : List Nat) (x : Nat) :
    getN (l1 ++ [x]) l1.length = x := by
  simp [getN, List.getD_eq_getElem?_getD, List.getElem?_append_right (le_refl l1.length)]

theorem getN_mem (l : List Nat) (k : Nat) (h : k < l.length) : getN l k ∈ l := by
  rw [getN_eq_get l k h]
  exact List.get_mem l k h

theorem natCast_ne_negOne (m : Nat) : ((m : Nat) : Int) ≠ -1 := by omega

theorem ifg_admit_inv (fc : List (Nat × Nat)) (max_gs n_ext : Nat)
    (st : IFGState) (grp : List Nat) (f : Nat)
    (hend : ∀ p ∈ fc, p.1 < n_ext ∧ p.2 < n_ext)
    (inv : IFGInv fc max_gs st grp) (hf : f < fc.length)
    (hunm : getI st.face_marker f = -1)
    (hnoc : ifg_conflict (csr_graph_create_cell_face n_ext fc) fc grp f = false) :
    IFGInv fc max_gs
      (IFGState.mk (st.face_marker.set f (st.groups.length : Int))
        (st.old_to_new.set f st.n_marked) (st.n_marked + 1)
        (if st.first_unmarked = f then f + 1 else st.first_unmarked)
        st.groups)
      (grp ++ [f]) := by
  have hfnot : f ∉ st.groups.flatten ++ grp := by
    intro hmem
    exact ((inv.hmark f hf).mpr hmem) hunm
  refine ⟨?_, ?_, ?_, ?_, ?_, ?_, ?_, ?_, ?_, ?_⟩
  · simpa [List.length_set] using inv.hm_len
  · simpa [List.length_set] using inv.ho_len
  · intro f' hf'
    by_cases hff : f' = f
    · subst hff
      constructor
      · intro _
        simp
      · intro _
        rw [show (IFGState.mk (st.face_marker.set f' (st.groups.length : Int))
            (st.old_to_new.set f' st.n_marked) (st.n_marked + 1)
            (if st.first_unmarked = f' then f' + 1 else st.first_unmarked)
            st.groups).face_marker = st.face_marker.set f' (st.groups.length : Int)
          from rfl]
        rw [show getI (st.face_marker.set f' (st.groups.length : Int)) f' =
            (st.groups.length : Int) from by
          simp [getI, List.getD_eq_getElem?_getD, List.getElem?_set_self,
            inv.hm_len ▸ hf']]
        exact natCast_ne_negOne _
    · have hset : getI (st.face_marker.set f (st.groups.length : Int)) f' =
          getI st.face_marker f' := by
        simp [getI, List.getD_eq_getElem?_getD,
          List.getElem?_set_ne (fun h => hff h.symm)]
      show getI (st.face_marker.set f (st.groups.length : Int)) f' ≠ -1 ↔
        f' ∈ st.groups.flatten ++ (grp ++ [f])
      rw [hset]
      rw [inv.hmark f' hf']
      constructor
      · intro h
        rw [← List.append_assoc]
        exact List.mem_append_left _ h
      · intro h
        rw [← List.append_assoc] at h
        rcases List.mem_append.mp h with h | h
        · exact h
        · exact absurd (List.mem_singleton.mp h) hff
  · show (st.groups.flatten ++ (grp ++ [f])).length = st.n_marked + 1
    rw [← List.append_assoc]
    simp only [List.length_append, List.length_singleton]
    rw [← List.length_append]
    rw [inv.hcount]
  · intro f' hmem
    rw [← List.append_assoc] at hmem
    rcases List.mem_append.mp hmem with h | h
    · exact inv.hlt f' h
    · rw [List.mem_singleton.mp h]
      exact hf
  · intro k hk
    show getN (st.old_to_new.set f st.n_marked)
      (getN (st.groups.flatten ++ (grp ++ [f])) k) = k
    rw [← List.append_assoc] at hk ⊢
    have hk2 : k < (st.groups.flatten ++ grp).length + 1 := by
      simpa [List.length_append] using hk
    have hall : (st.groups.flatten ++ grp).length = st.n_marked := inv.hcount
    rcases Nat.lt_or_ge k (st.groups.flatten ++ grp).length with hlt | hge
    · rw [getN_append_left _ _ _ hlt]
      have hne : getN (st.groups.flatten ++ grp) k ≠ f := by
        intro h
        exact hfnot (h ▸ getN_mem _ _ hlt)
      rw [getN_set_ne (fun h => hne h.symm)]
      exact inv.hpos k hlt
    · have hkeq : k = (st.groups.flatten ++ grp).length := by omega
      subst hkeq
      rw [getN_append_last]
      rw [getN_set_self (by rw [inv.ho_len]; exact hf)]
      omega
  · exact inv.hgsize
  · exact inv.hind
  · show List.Pairwise (fun a b => ¬ sharesCell fc a b) (grp ++ [f])
    rw [List.pairwise_append]
    refine ⟨inv.hgind, List.pairwise_singleton _ _, ?_⟩
    intro a ha b hb
    rw [List.mem_singleton.mp hb]
    intro hsh
    have : ifg_conflict (csr_graph_create_cell_face n_ext fc) fc grp f = true :=
      ifg_conflict_complete n_ext fc grp f a hend hf ha (sharesCell_symm hsh)
    rw [hnoc] at this
    exact Bool.false_ne_true this
  · intro f' hf' hfn
    show getI (st.face_marker.set f (st.groups.length : Int)) f' ≠ -1
    by_cases hff : f' = f
    · subst hff
      rw [show getI (st.face_marker.set f' (st.groups.length : Int)) f' =
          (st.groups.length : Int) from by
        simp [getI, List.getD_eq_getElem?_getD, List.getElem?_set_self,
          inv.hm_len ▸ hfn]]
      exact natCast_ne_negOne _
    · rw [show getI (st.face_marker.set f (st.groups.length : Int)) f' =
          getI st.face_marker f' from by
        simp [getI, List.getD_eq_getElem?_getD,
          List.getElem?_set_ne (fun h => hff h.symm)]]
      have hf'2 : f' < (if st.first_unmarked = f then f + 1 else st.first_unmarked) :=
        hf'
      by_cases hcase : st.first_unmarked = f
      · rw [if_pos hcase] at hf'2
        refine inv.hfu f' ?_ hfn
        rw [hcase]
        omega
      · rw [if_neg hcase] at hf'2
        exact inv.hfu f' hf'2 hfn

theorem ifg_scan_spec (fc : List (Nat × Nat)) (max_gs n_ext : Nat)
    (hend : ∀ p ∈ fc, p.1 < n_ext ∧ p.2 < n_ext) :
    ∀ (l : List Nat) (st : IFGState) (grp : List Nat),
      IFGInv fc max_gs st grp → grp.length < max_gs →
      (∀ f ∈ l, f < fc.length) →
      IFGInv fc max_gs
        (ifg_scan (csr_graph_create_cell_face n_ext fc) fc max_gs l (st, grp)).1
        (ifg_scan (csr_graph_create_cell_face n_ext fc) fc max_gs l (st, grp)).2 ∧
      (ifg_scan (csr_graph_create_cell_face n_ext fc) fc max_gs l
        (st, grp)).2.length ≤ max_gs ∧
      (ifg_scan (csr_graph_create_cell_face n_ext fc) fc max_gs l
        (st, grp)).1.groups = st.groups ∧
      st.n_marked ≤ (ifg_scan (csr_graph_create_cell_face n_ext fc) fc max_gs l
        (st, grp)).1.n_marked := by
  intro l
  induction l with
  | nil =>
    intro st grp inv hlen _
    refine ⟨inv, ?_, rfl, le_refl _⟩
    show grp.length ≤ max_gs
    omega
  | cons f rest ih =>
    intro st grp inv hlen hmem
    have hf : f < fc.length := hmem f (List.mem_cons_self _ _)
    have hrest : ∀ x ∈ rest, x < fc.length :=
      fun x hx => hmem x (List.mem_cons_of_mem _ hx)
    by_cases hm : getI st.face_marker f = -1
    · by_cases hc : ifg_conflict (csr_graph_create_cell_face n_ext fc) fc grp f = true
      · have heq : ifg_scan (csr_graph_create_cell_face n_ext fc) fc max_gs
            (f :: rest) (st, grp) =
            ifg_scan (csr_graph_create_cell_face n_ext fc) fc max_gs rest (st, grp) := by
          simp [ifg_scan, hm, hc]
        rw [heq]
        exact ih st grp inv hlen hrest
      · have hcf : ifg_conflict (csr_graph_create_cell_face n_ext fc) fc grp f = false :=
          Bool.eq_false_iff.mpr hc
        have hinv' := ifg_admit_inv fc max_gs n_ext st grp f hend inv hf hm hcf
        by_cases hgl : (grp ++ [f]).length = max_gs
        · have heq : ifg_scan (csr_graph_create_cell_face n_ext fc) fc max_gs
              (f :: rest) (st, grp) =
              (IFGState.mk (st.face_marker.set f (st.groups.length : Int))
                (st.old_to_new.set f st.n_marked) (st.n_marked + 1)
                (if st.first_unmarked = f then f + 1 else st.first_unmarked)
                st.groups, grp ++ [f]) := by
            simp [ifg_scan, hm, hc, hgl]
          rw [heq]
          refine ⟨hinv', ?_, rfl, ?_⟩
          · show (grp ++ [f]).length ≤ max_gs
            omega
          · show st.n_marked ≤ st.n_marked + 1
            omega
        · have heq : ifg_scan (csr_graph_create_cell_face n_ext fc) fc max_gs
              (f :: rest) (st, grp) =
              ifg_scan (csr_graph_create_cell_face n_ext fc) fc max_gs rest
              (IFGState.mk (st.face_marker.set f (st.groups.length : Int))
                (st.old_to_new.set f st.n_marked) (st.n_marked + 1)
                (if st.first_unmarked = f then f + 1 else st.first_unmarked)
                st.groups, grp ++ [f]) := by
            have hgl2 : ¬ grp.length + 1 = max_gs := by simpa using hgl
            simp [ifg_scan, hm, hc, hgl2]
          rw [heq]
          have hlen' : (grp ++ [f]).length < max_gs := by
            simp only [List.length_append, List.length_singleton] at hgl ⊢
            omega
          have hrec := ih _ _ hinv' hlen' hrest
          refine ⟨hrec.1, hrec.2.1, ?_, ?_⟩
          · rw [hrec.2.2.1]
          · refine le_trans ?_ hrec.2.2.2
            show st.n_marked ≤ st.n_marked + 1
            omega
    · have heq : ifg_scan (csr_graph_create_cell_face n_ext fc) fc max_gs
          (f :: rest) (st, grp) =
          ifg_scan (csr_graph_create_cell_face n_ext fc) fc max_gs rest (st, grp) := by
        simp [ifg_scan, hm]
      rw [heq]
      exact ih st grp inv hlen hrest

theorem ifg_scan_progress (cf : List (List Nat)) (fc : List (Nat × Nat)) (max_gs : Nat) :
    ∀ (l : List Nat) (st : IFGState) (grp : List Nat) (n0 : Nat),
      n0 ≤ st.n_marked → (grp ≠ [] → n0 + 1 ≤ st.n_marked) →
      ((∃ f ∈ l, getI st.face_marker f = -1) ∨ n0 + 1 ≤ st.n_marked) →
      n0 + 1 ≤ (ifg_scan cf fc max_gs l (st, grp)).1.n_marked := by
  intro l
  induction l with
  | nil =>
    intro st grp n0 h0 hg hex
    rcases hex with ⟨f, hf, _⟩ | h
    · exact absurd hf (List.not_mem_nil f)
    · exact h
  | cons f rest ih =>
    intro st grp n0 h0 hg hex
    by_cases hm : getI st.face_marker f = -1
    · by_cases hc : ifg_conflict cf fc grp f = true
      · have hgrp : grp ≠ [] := by
          intro h
          subst h
          simp [ifg_conflict] at hc
        have heq : ifg_scan cf fc max_gs (f :: rest) (st, grp) =
            ifg_scan cf fc max_gs rest (st, grp) := by
          simp [ifg_scan, hm, hc]
        rw [heq]
        exact ih st grp n0 h0 hg (Or.inr (hg hgrp))
      · by_cases hgl : (grp ++ [f]).length = max_gs
        · have heq : ifg_scan cf fc max_gs (f :: rest) (st, grp) =
              (IFGState.mk (st.face_marker.set f (st.groups.length : Int))
                (st.old_to_new.set f st.n_marked) (st.n_marked + 1)
                (if st.first_unmarked = f then f + 1 else st.first_unmarked)
                st.groups, grp ++ [f]) := by
            simp [ifg_scan, hm, hc, hgl]
          rw [heq]
          show n0 + 1 ≤ st.n_marked + 1
          omega
        · have heq : ifg_scan cf fc max_gs (f :: rest) (st, grp) =
              ifg_scan cf fc max_gs rest
              (IFGState.mk (st.face_marker.set f (st.groups.length : Int))
                (st.old_to_new.set f st.n_marked) (st.n_marked + 1)
                (if st.first_unmarked = f then f + 1 else st.first_unmarked)
                st.groups, grp ++ [f]) := by
            have hgl2 : ¬ grp.length + 1 = max_gs := by simpa using hgl
            simp [ifg_scan, hm, hc, hgl2]
          rw [heq]
          refine ih _ _ n0 ?_ ?_ ?_
          · show n0 ≤ st.n_marked + 1
            omega
          · intro _
            show n0 + 1 ≤ st.n_marked + 1
            omega
          · right
            show n0 + 1 ≤ st.n_marked + 1
            omega
    · have heq : ifg_scan cf fc max_gs (f :: rest) (st, grp) =
          ifg_scan cf fc max_gs rest (st, grp) := by
        simp [ifg_scan, hm]
      rw [heq]
      refine ih st grp n0 h0 hg ?_
      rcases hex with ⟨f', hf', hum⟩ | h
      · rcases List.mem_cons.mp hf' with rfl | hf'r
        · exact absurd hum hm
        · exact Or.inl ⟨f', hf'r, hum⟩
      · exact Or.inr h

theorem ifg_inv_nodup {fc : List (Nat × Nat)} {max_gs : Nat} {st : IFGState}
    {grp : List Nat} (inv : IFGInv fc max_gs st grp) :
    (st.groups.flatten ++ grp).Nodup := by
  rw [List.nodup_iff_injective_get]
  intro a b hab
  have ha := inv.hpos a.1 a.2
  have hb := inv.hpos b.1 b.2
  rw [getN_eq_get _ _ a.2] at ha
  rw [getN_eq_get _ _ b.2] at hb
  have : a.1 = b.1 := by
    rw [← ha, ← hb, hab]
  exact Fin.ext this

theorem ifg_inv_le {fc : List (Nat × Nat)} {max_gs : Nat} {st : IFGState}
    {grp : List Nat} (inv : IFGInv fc max_gs st grp) :
    st.n_marked ≤ fc.length := by
  rw [← inv.hcount]
  have hsub : st.groups.flatten ++ grp ⊆ List.range fc.length := by
    intro x hx
    rw [List.mem_range]
    exact inv.hlt x hx
  have := ((ifg_inv_nodup inv).subperm hsub).length_le
  simpa using this

theorem ifg_exists_unmarked {fc : List (Nat × Nat)} {max_gs : Nat} {st : IFGState}
    {grp : List Nat} (inv : IFGInv fc max_gs st grp)
    (hlt : st.n_marked < fc.length) :
    ∃ f, st.first_unmarked ≤ f ∧ f < fc.length ∧ getI st.face_marker f = -1 := by
  have hex : ∃ f, f < fc.length ∧ f ∉ st.groups.flatten ++ grp := by
    by_contra hno
    push_neg at hno
    have hsub : List.range fc.length ⊆ st.groups.flatten ++ grp := by
      intro x hx
      exact hno x (List.mem_range.mp hx)
    have := ((List.nodup_range fc.length).subperm hsub).length_le
    rw [inv.hcount] at this
    simp at this
    omega
  obtain ⟨f, hf, hnot⟩ := hex
  have hum : getI st.face_marker f = -1 := by
    by_contra hne
    exact hnot ((inv.hmark f hf).mp hne)
  refine ⟨f, ?_, hf, hum⟩
  by_contra hlt2
  push_neg at hlt2
  exact inv.hfu f hlt2 hf hum

theorem ifg_close_inv {fc : List (Nat × Nat)} {max_gs : Nat} {st : IFGState}
    {grp : List Nat} (inv : IFGInv fc max_gs st grp) (hlen : grp.length ≤ max_gs) :
    IFGInv fc max_gs
      (IFGState.mk st.face_marker st.old_to_new st.n_marked st.first_unmarked
        (st.groups ++ [grp])) [] := by
  have hE : (st.groups ++ [grp]).flatten ++ ([] : List Nat) =
      st.groups.flatten ++ grp := by
    simp
  refine ⟨inv.hm_len, inv.ho_len, ?_, ?_, ?_, ?_, ?_, ?_, List.Pairwise.nil, inv.hfu⟩
  · intro f hf
    show getI st.face_marker f ≠ -1 ↔ f ∈ (st.groups ++ [grp]).flatten ++ []
    rw [hE]
    exact inv.hmark f hf
  · show ((st.groups ++ [grp]).flatten ++ []).length = st.n_marked
    rw [hE]
    exact inv.hcount
  · intro f hf
    rw [hE] at hf
    exact inv.hlt f hf
  · intro k hk
    rw [hE] at hk ⊢
    exact inv.hpos k hk
  · intro g hg
    rcases List.mem_append.mp hg with h | h
    · exact inv.hgsize g h
    · rw [List.mem_singleton.mp h]
      exact hlen
  · intro g hg
    rcases List.mem_append.mp hg with h | h
    · exact inv.hind g h
    · rw [List.mem_singleton.mp h]
      exact inv.hgind

theorem ifg_outer_exit (cf : List (List Nat)) (fc : List (Nat × Nat))
    (max_gs n_faces : Nat) (st : IFGState) (h : st.n_marked = n_faces) :
    ∀ fuel, ifg_outer cf fc max_gs n_faces fuel st = st := by
  intro fuel
  cases fuel with
  | zero => rfl
  | succ fuel => simp [ifg_outer, h]

theorem ifg_outer_spec (fc : List (Nat × Nat)) (max_gs n_ext : Nat)
    (hend : ∀ p ∈ fc, p.1 < n_ext ∧ p.2 < n_ext) (hmax : 1 ≤ max_gs) :
    ∀ (fuel : Nat) (st : IFGState), IFGInv fc max_gs st [] →
      fc.length ≤ st.n_marked + fuel →
      IFGInv fc max_gs
        (ifg_outer (csr_graph_create_cell_face n_ext fc) fc max_gs fc.length fuel st)
        [] ∧
      (ifg_outer (csr_graph_create_cell_face n_ext fc) fc max_gs fc.length fuel
        st).n_marked = fc.length ∧
      ∀ extra, ifg_outer (csr_graph_create_cell_face n_ext fc) fc max_gs fc.length
        (fuel + extra) st =
        ifg_outer (csr_graph_create_cell_face n_ext fc) fc max_gs fc.length fuel st := by
  intro fuel
  induction fuel with
  | zero =>
    intro st inv hfuel
    have hle := ifg_inv_le inv
    have heq : st.n_marked = fc.length := by omega
    refine ⟨inv, heq, ?_⟩
    intro extra
    rw [ifg_outer_exit _ _ _ _ _ heq]
    rfl
  | succ fuel ih =>
    intro st inv hfuel
    by_cases hdone : st.n_marked = fc.length
    · rw [ifg_outer_exit _ _ _ _ _ hdone]
      refine ⟨inv, hdone, ?_⟩
      intro extra
      rw [ifg_outer_exit _ _ _ _ _ hdone]
    · have hlt : st.n_marked < fc.length := lt_of_le_of_ne (ifg_inv_le inv) hdone
      obtain ⟨f0, hfu0, hf0, hum0⟩ := ifg_exists_unmarked inv hlt
      have hmem : ∀ x ∈ List.range' st.first_unmarked
          (fc.length - st.first_unmarked), x < fc.length := by
        intro x hx
        have := List.mem_range'_1.mp hx
        omega
      have hscan := ifg_scan_spec fc max_gs n_ext hend
        (List.range' st.first_unmarked (fc.length - st.first_unmarked)) st []
        inv (by simpa using hmax) hmem
      have hprog := ifg_scan_progress (csr_graph_create_cell_face n_ext fc) fc max_gs
        (List.range' st.first_unmarked (fc.length - st.first_unmarked)) st []
        st.n_marked (le_refl _) (by simp)
        (Or.inl ⟨f0, List.mem_range'_1.mpr ⟨hfu0, by omega⟩, hum0⟩)
      have hstep : ifg_outer (csr_graph_create_cell_face n_ext fc) fc max_gs
          fc.length (fuel + 1) st =
          ifg_outer (csr_graph_create_cell_face n_ext fc) fc max_gs fc.length fuel
          (IFGState.mk
            (ifg_scan (csr_graph_create_cell_face n_ext fc) fc max_gs
              (List.range' st.first_unmarked (fc.length - st.first_unmarked))
              (st, [])).1.face_marker
            (ifg_scan (csr_graph_create_cell_face n_ext fc) fc max_gs
              (List.range' st.first_unmarked (fc.length - st.first_unmarked))
              (st, [])).1.old_to_new
            (ifg_scan (csr_graph_create_cell_face n_ext fc) fc max_gs
              (List.range' st.first_unmarked (fc.length - st.first_unmarked))
              (st, [])).1.n_marked
            (ifg_scan (csr_graph_create_cell_face n_ext fc) fc max_gs
              (List.range' st.first_unmarked (fc.length - st.first_unmarked))
              (st, [])).1.first_unmarked
            ((ifg_scan (csr_graph_create_cell_face n_ext fc) fc max_gs
              (List.range' st.first_unmarked (fc.length - st.first_unmarked))
              (st, [])).1.groups ++
             [(ifg_scan (csr_graph_create_cell_face n_ext fc) fc max_gs
              (List.range' st.first_unmarked (fc.length - st.first_unmarked))
              (st, [])).2])) := by
        simp [ifg_outer, hdone]
      have hinv2 := ifg_close_inv hscan.1 hscan.2.1
      have hfuel2 : fc.length ≤
          (ifg_scan (csr_graph_create_cell_face n_ext fc) fc max_gs
            (List.range' st.first_unmarked (fc.length - st.first_unmarked))
            (st, [])).1.n_marked + fuel := by
        omega
      have hrec := ih _ hinv2 (by
        show fc.length ≤ _ + fuel
        exact hfuel2)
      rw [hstep]
      refine ⟨hrec.1, hrec.2.1, ?_⟩
      intro extra
      have harith : fuel + 1 + extra = (fuel + extra) + 1 := by omega
      rw [harith]
      have hstep2 : ifg_outer (csr_graph_create_cell_face n_ext fc) fc max_gs
          fc.length ((fuel + extra) + 1) st =
          ifg_outer (csr_graph_create_cell_face n_ext fc) fc max_gs fc.length
          (fuel + extra)
          (IFGState.mk
            (ifg_scan (csr_graph_create_cell_face n_ext fc) fc max_gs
              (List.range' st.first_unmarked (fc.length - st.first_unmarked))
              (st, [])).1.face_marker
            (ifg_scan (csr_graph_create_cell_face n_ext fc) fc max_gs
              (List.range' st.first_unmarked (fc.length - st.first_unmarked))
              (st, [])).1.old_to_new
            (ifg_scan (csr_graph_create_cell_face n_ext fc) fc max_gs
              (List.range' st.first_unmarked (fc.length - st.first_unmarked))
              (st, [])).1.n_marked
            (ifg_scan (csr_graph_create_cell_face n_ext fc) fc max_gs
              (List.range' st.first_unmarked (fc.length - st.first_unmarked))
              (st, [])).1.first_unmarked
            ((ifg_scan (csr_graph_create_cell_face n_ext fc) fc max_gs
              (List.range' st.first_unmarked (fc.length - st.first_unmarked))
              (st, [])).1.groups ++
             [(ifg_scan (csr_graph_create_cell_face n_ext fc) fc max_gs
              (List.range' st.first_unmarked (fc.length - st.first_unmarked))
              (st, [])).2])) := by
        simp [ifg_outer, hdone]
      rw [hstep2]
      exact hrec.2.2 extra

theorem scatter_length (o2n : List Nat) :
    ∀ (l : List Nat) (a : List Nat),
      (l.foldl (fun a f => a.set (getN o2n f) f) a).length = a.length := by
  intro l
  induction l with
  | nil => intro a; rfl
  | cons f rest ih =>
    intro a
    rw [List.foldl_cons, ih]
    simp

theorem scatter_untouched (o2n : List Nat) :
    ∀ (l : List Nat) (a : List Nat) (k : Nat), (∀ f ∈ l, getN o2n f ≠ k) →
      getN (l.foldl (fun a f => a.set (getN o2n f) f) a) k = getN a k := by
  intro l
  induction l with
  | nil => intro a k _; rfl
  | cons f rest ih =>
    intro a k hne
    rw [List.foldl_cons, ih _ k (fun x hx => hne x (List.mem_cons_of_mem _ hx))]
    exact getN_set_ne (hne f (List.mem_cons_self _ _))

theorem scatter_hit (o2n : List Nat) (l1 : List Nat) (f : Nat) (l2 : List Nat)
    (a : List Nat) (k : Nat) (hk : getN o2n f = k)
    (hk2 : ∀ f' ∈ l2, getN o2n f' ≠ k) (hlen : k < a.length) :
    getN ((l1 ++ f :: l2).foldl (fun a f => a.set (getN o2n f) f) a) k = f := by
  rw [List.foldl_append, List.foldl_cons]
  rw [scatter_untouched o2n l2 _ k hk2]
  rw [hk]
  exact getN_set_self (by rw [scatter_length]; omega)

theorem scatter_eq (o2n L : List Nat) (n : Nat)
    (hLlen : L.length = n) (hent : ∀ f ∈ L, f < n)
    (hpos : ∀ k, k < n → getN o2n (getN L k) = k)
    (hmem : ∀ f, f < n → f ∈ L) :
    (List.range n).foldl (fun a f => a.set (getN o2n f) f) (List.range n) = L := by
  apply List.ext_get
  · rw [scatter_length]
    simp [hLlen]
  · intro k h1 h2
    have hkn : k < n := by
      have := h2
      omega
    have hfstar : getN L k ∈ L := getN_mem L k (by omega)
    have hfn : getN L k < n := hent _ hfstar
    have hsplit1 : List.range' (getN L k) (n - getN L k) =
        (getN L k) :: List.range' (getN L k + 1) (n - getN L k - 1) := by
      have hs := List.range'_succ (getN L k) (n - getN L k - 1) 1
      rw [show n - getN L k - 1 + 1 = n - getN L k from by omega] at hs
      exact hs
    have happ := List.range'_append_1 0 (getN L k) (n - getN L k)
    simp only [Nat.zero_add] at happ
    have hsplit : List.range n =
        List.range' 0 (getN L k) ++ (getN L k) :: List.range' (getN L k + 1)
          (n - getN L k - 1) :=
      calc List.range n = List.range' 0 n := List.range_eq_range' n
      _ = List.range' 0 ((n - getN L k) + getN L k) := by
          rw [show (n - getN L k) + getN L k = n from by omega]
      _ = List.range' 0 (getN L k) ++ List.range' (getN L k) (n - getN L k) :=
          happ.symm
      _ = List.range' 0 (getN L k) ++ (getN L k) :: List.range' (getN L k + 1)
          (n - getN L k - 1) := by rw [hsplit1]
    have hval : getN ((List.range n).foldl
        (fun a f => a.set (getN o2n f) f) (List.range n)) k = getN L k := by
      rw [hsplit]
      apply scatter_hit
      · exact hpos k hkn
      · intro f' hf'
        have hbounds := List.mem_range'_1.mp hf'
        intro hcontra
        have hf'L : f' ∈ L := hmem f' (by omega)
        obtain ⟨j, hj, hgetj⟩ := List.mem_iff_getElem.mp hf'L
        have hgN : getN L j = f' := by
          rw [getN_eq_get L j hj]
          simpa using hgetj
        have := hpos j (by omega)
        rw [hgN, hcontra] at this
        subst this
        omega
      · simp [List.length_append, List.length_range']
        omega
    rw [← getN_eq_get _ k h1, ← getN_eq_get L k h2]
    exact hval

theorem ifg_init_inv (fc : List (Nat × Nat)) (max_gs : Nat) :
    IFGInv fc max_gs
      (IFGState.mk (List.replicate fc.length (-1 : Int)) (List.range fc.length)
        0 0 []) [] := by
  refine ⟨by simp, by simp, ?_, rfl, ?_, ?_, ?_, ?_, List.Pairwise.nil, ?_⟩
  · intro f hf
    have hgi : getI (List.replicate fc.length (-1 : Int)) f = -1 := by
      simp [getI, List.getD_eq_getElem?_getD, List.getElem?_replicate, hf]
    show getI (List.replicate fc.length (-1 : Int)) f ≠ -1 ↔ _
    rw [hgi]
    simp
  · intro f hf
    simp at hf
  · intro k hk
    simp at hk
  · intro g hg
    simp at hg
  · intro g hg
    simp at hg
  · intro f hf
    intro hf2
    have hf0 : f < 0 := hf
    omega

theorem ifg_main (max_gs n_ext : Nat) (fc : List (Nat × Nat))
    (hmax : 1 ≤ max_gs) (hend : ∀ p ∈ fc, p.1 < n_ext ∧ p.2 < n_ext) :
    ((ifg_run max_gs n_ext fc).groups.flatten).Perm (List.range fc.length) ∧
    (∀ g ∈ (ifg_run max_gs n_ext fc).groups, g.length ≤ max_gs) ∧
    (∀ g ∈ (ifg_run max_gs n_ext fc).groups,
      List.Pairwise (fun a b => ¬ sharesCell fc a b) g) ∧
    (ifg_run max_gs n_ext fc).n_marked = fc.length ∧
    (independent_face_groups max_gs n_ext fc).1 =
      (ifg_run max_gs n_ext fc).groups.flatten ∧
    (∀ extra, ifg_outer (csr_graph_create_cell_face n_ext fc) fc max_gs fc.length
      (fc.length + extra)
      (IFGState.mk (List.replicate fc.length (-1 : Int)) (List.range fc.length)
        0 0 []) = ifg_run max_gs n_ext fc) := by
  have hspec := ifg_outer_spec fc max_gs n_ext hend hmax fc.length
    (IFGState.mk (List.replicate fc.length (-1 : Int)) (List.range fc.length) 0 0 [])
    (ifg_init_inv fc max_gs) (by omega)
  have hrun : ifg_run max_gs n_ext fc =
      ifg_outer (csr_graph_create_cell_face n_ext fc) fc max_gs fc.length fc.length
      (IFGState.mk (List.replicate fc.length (-1 : Int)) (List.range fc.length)
        0 0 []) := rfl
  have invF := hspec.1
  have hnm := hspec.2.1
  have hnodup : ((ifg_run max_gs n_ext fc).groups.flatten).Nodup := by
    have := ifg_inv_nodup invF
    rw [hrun]
    simpa using this
  have hlenF : ((ifg_run max_gs n_ext fc).groups.flatten).length = fc.length := by
    have := invF.hcount
    rw [hrun]
    simp only [List.append_nil] at this
    rw [this]
    rw [← hrun] at hnm ⊢
    exact hnm
  have hsubF : (ifg_run max_gs n_ext fc).groups.flatten ⊆ List.range fc.length := by
    intro x hx
    rw [List.mem_range]
    refine invF.hlt x ?_
    rw [← hrun]
    simpa using hx
  have hperm : ((ifg_run max_gs n_ext fc).groups.flatten).Perm
      (List.range fc.length) := by
    refine (hnodup.subperm hsubF).perm_of_length_le ?_
    rw [hlenF]
    simp
  refine ⟨hperm, ?_, ?_, ?_, ?_, ?_⟩
  · intro g hg
    refine invF.hgsize g ?_
    rw [← hrun]
    exact hg
  · intro g hg
    refine invF.hind g ?_
    rw [← hrun]
    exact hg
  · rw [hrun]
    exact hnm
  · have hdef : (independent_face_groups max_gs n_ext fc).1 =
        (List.range fc.length).foldl
          (fun a f => a.set (getN (ifg_run max_gs n_ext fc).old_to_new f) f)
          (List.range fc.length) := rfl
    rw [hdef]
    apply scatter_eq _ _ fc.length hlenF
    · intro f hf
      refine invF.hlt f ?_
      rw [← hrun]
      simpa using hf
    · intro k hk
      have := invF.hpos k (by rw [← hrun]; simpa [hlenF] using hk)
      rw [hrun]
      simpa using this
    · intro f hf
      exact hperm.mem_iff.mpr (List.mem_range.mpr hf)
  · intro extra
    rw [hrun]
    exact hspec.2.2 extra

theorem mp_ok_nto_perm (fuel : Nat) (mesh : Mesh) (nt mi : Nat) (nto : List Nat)
    (ng : Nat) (gi : List Int)
    (h : renum_face_multipass fuel mesh nt mi = some (MPResult.ok nto ng gi)) :
    nto.Perm (List.range mesh.i_face_cells.length) := by
  unfold renum_face_multipass at h
  by_cases hg : mesh.i_face_cells.length ≤ mi
  · rw [if_pos hg] at h
    simp at h
  · rw [if_neg hg] at h
    rcases hloop : renum_face_multipass_loop nt mi relax05 fuel
        (mp_initial_state mesh nt) with _ | s
    · rw [hloop] at h
      simp at h
    · rw [hloop] at h
      simp only [Option.map_some'] at h
      injection h with h
      simp only [mp_finalize] at h
      rw [MPResult.ok.injEq] at h
      rw [← h.1]
      exact cs_order_lnum_s_perm _ _

/-- C6: `_independent_face_groups` assigns every face to exactly one group
(the groups' concatenation is a permutation of the face range), every
group's size is at most `max_group_size`, the concatenation of the groups
in group order is exactly the returned new→old face permutation (and the
returned group count and sizes match), within any single group no two
faces share an endpoint cell, and the outer loop terminates within
`n_faces` iterations for every input with `max_group_size ≥ 1` (extra fuel
does not change the result). -/
theorem independent_face_groups_correct (max_gs n_ext : Nat)
    (fc : List (Nat × Nat)) (hmax : 1 ≤ max_gs)
    (hend : ∀ p ∈ fc, p.1 < n_ext ∧ p.2 < n_ext) :
    ((ifg_run max_gs n_ext fc).groups.flatten).Perm (List.range fc.length) ∧
    (∀ g ∈ (ifg_run max_gs n_ext fc).groups, g.length ≤ max_gs) ∧
    (independent_face_groups max_gs n_ext fc).1 =
      (ifg_run max_gs n_ext fc).groups.flatten ∧
    (independent_face_groups max_gs n_ext fc).2.1 =
      (ifg_run max_gs n_ext fc).groups.length ∧
    (independent_face_groups max_gs n_ext fc).2.2 =
      (ifg_run max_gs n_ext fc).groups.map List.length ∧
    (∀ g ∈ (ifg_run max_gs n_ext fc).groups,
      List.Pairwise (fun a b => ¬ sharesCell fc a b) g) ∧
    (ifg_run max_gs n_ext fc).n_marked = fc.length ∧
    (∀ extra, ifg_outer (csr_graph_create_cell_face n_ext fc) fc max_gs fc.length
      (fc.length + extra)
      (IFGState.mk (List.replicate fc.length (-1 : Int)) (List.range fc.length)
        0 0 []) = ifg_run max_gs n_ext fc) := by
  have h := ifg_main max_gs n_ext fc hmax hend
  exact ⟨h.1, h.2.1, h.2.2.2.2.1, rfl, rfl, h.2.2.1, h.2.2.2.1, h.2.2.2.2.2⟩

theorem independent_face_groups_correct_witness :
    1 ≤ 2 ∧ (∀ p ∈ [((0 : Nat), (1 : Nat)), (1, 2), (0, 2)], p.1 < 3 ∧ p.2 < 3) ∧
    ((ifg_run 2 3 [(0, 1), (1, 2), (0, 2)]).groups.flatten).Perm (List.range 3) ∧
    (independent_face_groups 2 3 [(0, 1), (1, 2), (0, 2)]).1 =
      (ifg_run 2 3 [(0, 1), (1, 2), (0, 2)]).groups.flatten :=
  ⟨by decide, by decide,
   (independent_face_groups_correct 2 3 [(0, 1), (1, 2), (0, 2)]
     (by decide) (by decide)).1,
   (independent_face_groups_correct 2 3 [(0, 1), (1, 2), (0, 2)]
     (by decide) (by decide)).2.2.1⟩

/-- C7: every new→old permutation produced by the renumbering algorithms is
a bijection on the corresponding index range: the multipass interior
renumbering (whenever it returns a result), the boundary partitioner, and
the independent-groups interior renumbering each produce a permutation of
`[0, n)`. -/
theorem new_to_old_bijections (mesh : Mesh) (fuel nt mi T m max_gs n_ext : Nat)
    (fc : List (Nat × Nat)) (nto : List Nat) (ng : Nat) (gi : List Int)
    (hmp : renum_face_multipass fuel mesh nt mi = some (MPResult.ok nto ng gi))
    (hmax : 1 ≤ max_gs) (hend : ∀ p ∈ fc, p.1 < n_ext ∧ p.2 < n_ext) :
    nto.Perm (List.range mesh.i_face_cells.length) ∧
    (renum_b_faces_no_share_cell_across_thread mesh T m).new_to_old_b.Perm
      (List.range mesh.b_face_cells.length) ∧
    (independent_face_groups max_gs n_ext fc).1.Perm (List.range fc.length) := by
  refine ⟨mp_ok_nto_perm fuel mesh nt mi nto ng gi hmp, ?_, ?_⟩
  · rw [renum_b_nto_eq]
    exact cs_order_lnum_s_perm _ _
  · have h := ifg_main max_gs n_ext fc hmax hend
    rw [h.2.2.2.2.1]
    exact h.1

theorem new_to_old_bijections_witness :
    renum_face_multipass 5 c7_mesh 2 1 =
      some (MPResult.ok [0, 1] 1 [0, 1, 1, 2]) ∧
    1 ≤ 2 ∧ (∀ p ∈ [((0 : Nat), (1 : Nat)), (1, 2), (0, 2)], p.1 < 3 ∧ p.2 < 3) ∧
    ([0, 1] : List Nat).Perm (List.range 2) :=
  ⟨by decide, by decide, by decide,
   (new_to_old_bijections c7_mesh 5 2 1 1 1 2 3 [(0, 1), (1, 2), (0, 2)]
     [0, 1] 1 [0, 1, 1, 2] (by decide) (by decide) (by decide)).1⟩
